import Mathlib

/-!
Verification development for the FireGL instanced rendering core.

Shallow embedding of the renderer pipeline (Renderer.cpp), the growable
matrix store (MatrixBuffer.cpp), the transform cache (Transform.cpp,
SceneObject.cpp, Scene.cpp, BaseLog.cpp) and the mesh content hash
(Mesh.cpp).  GPU calls are modelled as an event trace; object identity
(C++ pointers) is modelled by a numeric id, and the per-object mutable
m_New flag (SceneObject.cpp) lives in a heap-like function from ids to
Bool so that aliasing through the scene container is captured faithfully.
-/

namespace FireGL

/-- MatrixBuffer (MatrixBuffer.cpp): m_ObjectCount is the object capacity
(each object slot holds two mat4), and allocated records whether m_Buffer
is non-null.  The default constructor gives count 0 and a null buffer. -/
structure MatrixBuffer where
  objectCount : Nat
  allocated : Bool
deriving DecidableEq

/-- Default-constructed MatrixBuffer: m_ObjectCount = 0, m_Buffer = nullptr. -/
def MatrixBuffer.empty : MatrixBuffer := ⟨0, false⟩

/-- MatrixBuffer::Resize (MatrixBuffer.cpp lines 17-26): a request that does
not exceed the current capacity returns immediately; otherwise the capacity
becomes twice the requested object count and a fresh buffer is allocated. -/
def MatrixBuffer.Resize (buf : MatrixBuffer) (newObjectCount : Nat) : MatrixBuffer :=
  if newObjectCount ≤ buf.objectCount then buf
  else { objectCount := newObjectCount * 2, allocated := true }

/-- SceneObject as the renderer sees it (SceneObject.h): a stable identity
(the C++ pointer), the content hash (GetHash), the IsSkybox flag, and the
number of meshes GetMeshes yields (Shape: 1, Model: possibly more).  The
mutable m_New flag is kept separately in a Flags heap. -/
structure Obj where
  id : Nat
  hash : Nat
  isSkybox : Bool
  meshCount : Nat
deriving DecidableEq

/-- Heap of per-object m_New flags, keyed by object identity. -/
def Flags : Type := Nat → Bool

/-- SceneObject::SetNew on the object with the given id. -/
def setFlag (f : Flags) (i : Nat) (b : Bool) : Flags :=
  fun j => if j = i then b else f j

/-- Events of one frame: the observable GPU-facing actions of Renderer.cpp.
ensure n is the EnsureBufferCapacity(n) call (including its conditional
glBufferData reallocation); firstPass / secondPass are PerformFirstPass /
PerformSecondPass over all meshes of one object; bindBuffer is
BindMVPBuffer; write slot oid is one store into m_MVPMatrixBuffer.Get();
upload is UploadMVPDataToGPU; draw oid count is one instanced draw call
(BaseMesh::Render) issued for a mesh of the given object. -/
inductive Ev where
  | clear : Ev
  | ensure : Nat → Ev
  | firstPass : Nat → Ev
  | bindBuffer : Ev
  | secondPass : Nat → Ev
  | write : Nat → Nat → Ev
  | upload : Ev
  | draw : Nat → Nat → Ev
deriving DecidableEq

/-- Number of occurrences of an event in a trace. -/
def countEv (e : Ev) : List Ev → Nat
  | [] => 0
  | x :: rest => (if x = e then 1 else 0) + countEv e rest

/-- Contiguous-subsequence relation on traces. -/
def contiguousIn (l₁ l₂ : List Ev) : Prop :=
  ∃ s t, s ++ l₁ ++ t = l₂

/-- Test for write events. -/
def Ev.isWrite : Ev → Bool
  | .write _ _ => true
  | _ => false

/-- Test for draw events. -/
def Ev.isDraw : Ev → Bool
  | .draw _ _ => true
  | _ => false

/-! Batching (Renderer::BatchSceneObjects, Renderer.cpp lines 64-78).
The C++ std::map keyed by size_t is modelled as an association list with
strictly increasing keys; push_back appends to the bucket. -/

/-- Insertion into the key-sorted batch map: the bucket for an existing key
is extended at the back (std::vector::push_back), a new key is placed at
its sorted position (std::map ordering). -/
def insertBatch : List (Nat × List Obj) → Nat → Obj → List (Nat × List Obj)
  | [], k, o => [(k, [o])]
  | (k', b) :: rest, k, o =>
    if k < k' then (k, [o]) :: (k', b) :: rest
    else if k = k' then (k', b ++ [o]) :: rest
    else (k', b) :: insertBatch rest k o

/-- Bucket stored for a key (empty when the key is absent). -/
def lookupBatch : List (Nat × List Obj) → Nat → List Obj
  | [], _ => []
  | (k', b) :: rest, k => if k = k' then b else lookupBatch rest k

/-- Keys are strictly increasing, as std::map iteration guarantees. -/
def keysSortedB : List (Nat × List Obj) → Bool
  | [] => true
  | [_] => true
  | (k1, _) :: (k2, b2) :: rest =>
    decide (k1 < k2) && keysSortedB ((k2, b2) :: rest)

/-- Last object in registration order whose IsSkybox flag is set, if any:
the reference parameter Skybox of BatchSceneObjects is overwritten by every
flagged object encountered. -/
def lastFlagged : List Obj → Option Obj
  | [] => none
  | o :: rest =>
    match lastFlagged rest with
    | some s => some s
    | none => if o.isSkybox then some o else none

/-- Loop body of Renderer::BatchSceneObjects: a flagged object overwrites
the Skybox out-parameter and is skipped, every other object is appended to
the bucket of its hash. -/
def batchStep (acc : List (Nat × List Obj) × Option Obj) (o : Obj) :
    List (Nat × List Obj) × Option Obj :=
  if o.isSkybox then (acc.1, some o)
  else (insertBatch acc.1 o.hash o, acc.2)

/-- Renderer::BatchSceneObjects: walks the scene objects in registration
order applying the loop body, starting from the empty map and a null
Skybox out-parameter. -/
def BatchSceneObjects (objs : List Obj) : List (Nat × List Obj) × Option Obj :=
  objs.foldl batchStep ([], none)

/-- Concatenation of all buckets of the batch map, in map order. -/
def flatBatches : List (Nat × List Obj) → List Obj
  | [] => []
  | b :: rest => b.2 ++ flatBatches rest

/-! Per-frame processing (Renderer.cpp). -/

/-- Renderer::ProcessObjectForMVP (lines 148-163): when the object is New,
PerformFirstPass runs, then BindMVPBuffer, then PerformSecondPass, then
SetNew(false); afterwards the MVP and Model matrices are written at the
cursor and the cursor advances by two slots. -/
def ProcessObjectForMVP (flags : Flags) (o : Obj) (idx : Nat) :
    List Ev × Flags × Nat :=
  if flags o.id then
    ([Ev.firstPass o.id, Ev.bindBuffer, Ev.secondPass o.id,
      Ev.write idx o.id, Ev.write (idx + 1) o.id],
     setFlag flags o.id false, idx + 2)
  else
    ([Ev.write idx o.id, Ev.write (idx + 1) o.id], flags, idx + 2)

/-- Sequential processing of the batched objects (the nested loops of
UpdateMVPInstances, flattened in iteration order). -/
def processList (flags : Flags) (idx : Nat) : List Obj → List Ev × Flags × Nat
  | [] => ([], flags, idx)
  | o :: rest =>
    let r := ProcessObjectForMVP flags o idx
    let rr := processList r.2.1 r.2.2 rest
    (r.1 ++ rr.1, rr.2.1, rr.2.2)

/-- Renderer::EnsureBufferCapacity (lines 138-146): when the buffer is null
or its capacity is below the request, Resize runs and the GL buffer store
is reallocated; the returned event records the call with its argument. -/
def EnsureBufferCapacity (buf : MatrixBuffer) (total : Nat) :
    List Ev × MatrixBuffer :=
  ([Ev.ensure total],
   if buf.allocated = false ∨ buf.objectCount < total then buf.Resize total
   else buf)

/-- Renderer::UpdateMVPInstances (lines 120-136): the requested capacity is
the scene object count minus one when a skybox was found; each batch, in
map order, is processed object by object; one upload ends the phase.
(The size_t subtraction cannot underflow: HasSkybox implies a nonempty
scene, so Nat subtraction is faithful on reachable inputs.) -/
def UpdateMVPInstances (buf : MatrixBuffer) (flags : Flags)
    (sceneObjectCount : Nat) (batches : List (Nat × List Obj))
    (hasSkybox : Bool) : List Ev × MatrixBuffer × Flags :=
  let total := sceneObjectCount - (if hasSkybox then 1 else 0)
  let pr := processList flags 0 (flatBatches batches)
  ((EnsureBufferCapacity buf total).1 ++ pr.1 ++ [Ev.upload],
   (EnsureBufferCapacity buf total).2, pr.2.1)

/-- One SceneObject::Render(count) call: each mesh of the object issues one
instanced draw with the given instance count (Shape.cpp, Model.cpp). -/
def drawCallsOf (o : Obj) (count : Nat) : List Ev :=
  List.replicate o.meshCount (Ev.draw o.id count)

/-- Draw calls of one batch: Renderer::RenderBatches calls
Object->Render(ObjectBatch.size()) for every object of the batch. -/
def drawBatch (count : Nat) : List Obj → List Ev
  | [] => []
  | o :: rest => drawCallsOf o count ++ drawBatch count rest

/-- Renderer::RenderBatches (lines 80-89). -/
def RenderBatches : List (Nat × List Obj) → List Ev
  | [] => []
  | b :: rest => drawBatch b.2.length b.2 ++ RenderBatches rest

/-- Renderer::RenderSkybox (lines 91-102): when a skybox exists and is New,
only PerformFirstPass runs and the flag is cleared; then the skybox renders
with instance count 1. -/
def RenderSkybox (flags : Flags) : Option Obj → List Ev × Flags
  | none => ([], flags)
  | some s =>
    if flags s.id then
      (Ev.firstPass s.id :: drawCallsOf s 1, setFlag flags s.id false)
    else
      (drawCallsOf s 1, flags)

/-- Draw events contributed by the skybox slot of a frame. -/
def skyboxDraws : Option Obj → List Ev
  | none => []
  | some s => drawCallsOf s 1

/-- Renderer::Render (lines 48-57): clear, batch, update instances, render
batches, render skybox. -/
def Render (buf : MatrixBuffer) (flags : Flags) (objs : List Obj) :
    List Ev × MatrixBuffer × Flags :=
  let batches := (BatchSceneObjects objs).1
  let skybox := (BatchSceneObjects objs).2
  let u := UpdateMVPInstances buf flags objs.length batches skybox.isSome
  let sky := RenderSkybox u.2.2 skybox
  (Ev.clear :: (u.1 ++ RenderBatches batches ++ sky.1), u.2.1, sky.2)

/-- Buffer and flag state after k frames of the render loop over a fixed
scene. -/
def RenderLoop (buf : MatrixBuffer) (flags : Flags) (objs : List Obj) :
    Nat → MatrixBuffer × Flags
  | 0 => (buf, flags)
  | k + 1 =>
    let r := Render buf flags objs
    RenderLoop r.2.1 r.2.2 objs k

/-- Trace of frame k (0-based) of the render loop. -/
def frameTrace (buf : MatrixBuffer) (flags : Flags) (objs : List Obj)
    (k : Nat) : List Ev :=
  (Render (RenderLoop buf flags objs k).1 (RenderLoop buf flags objs k).2
    objs).1

/-- Expected write events for a list of objects processed from a given
cursor: two consecutive slots per object, cursor advancing by two. -/
def writesFor : List Obj → Nat → List Ev
  | [], _ => []
  | o :: rest, i => Ev.write i o.id :: Ev.write (i + 1) o.id :: writesFor rest (i + 2)

/-! Transform cache (Transform.cpp, SceneObject.cpp, Scene.cpp).  The glm
scalar and matrix types and operations are opaque external collaborators;
they are passed in as a structure of operations so that the theorems hold
for every interpretation, float arithmetic included. -/

/-- Component triple standing for glm::vec3. -/
structure Vec3 (α : Type) where
  x : α
  y : α
  z : α
deriving DecidableEq

/-- Opaque glm operations used by Transform.cpp: matrix product, translate,
rotate about an axis, scale, degree-to-radian conversion, and the scalar
operations used by the component mutators, plus the scalar literals 0 and 1
appearing in the source. -/
structure GlmOps (α M : Type) where
  mul : M → M → M
  translate : Vec3 α → M
  rotate : α → Vec3 α → M
  scaleMat : Vec3 α → M
  radians : α → α
  add : α → α → α
  amul : α → α → α
  zero : α
  one : α

/-- Componentwise vector addition (operator += on glm::vec3). -/
def vecAdd (ops : GlmOps α M) (a b : Vec3 α) : Vec3 α :=
  ⟨ops.add a.x b.x, ops.add a.y b.y, ops.add a.z b.z⟩

/-- Componentwise vector product (operator *= on glm::vec3). -/
def vecMul (ops : GlmOps α M) (a b : Vec3 α) : Vec3 α :=
  ⟨ops.amul a.x b.x, ops.amul a.y b.y, ops.amul a.z b.z⟩

/-- Transform state (Transform.h): position, rotation (pitch/yaw/roll in
degrees), scale, the cached model matrix and the dirty flag. -/
structure Transform (α M : Type) where
  m_Position : Vec3 α
  m_Rotation : Vec3 α
  m_Scale : Vec3 α
  m_CachedModelMatrix : M
  m_Dirty : Bool

/-- Transform constructor (Transform.cpp lines 8-13): zero position and
rotation, unit scale, dirty set; the cached matrix starts at whatever the
default glm::mat4 holds. -/
def Transform.init (ops : GlmOps α M) (initialCache : M) : Transform α M :=
  { m_Position := ⟨ops.zero, ops.zero, ops.zero⟩
    m_Rotation := ⟨ops.zero, ops.zero, ops.zero⟩
    m_Scale := ⟨ops.one, ops.one, ops.one⟩
    m_CachedModelMatrix := initialCache
    m_Dirty := true }

/-- Mutators of Transform.cpp (lines 15-107); the three-float overloads
construct the same vector, so one constructor per distinct state change. -/
inductive Mut (α : Type) where
  | setPosition : Vec3 α → Mut α
  | moveBy : Vec3 α → Mut α
  | setRotation : Vec3 α → Mut α
  | rotateBy : Vec3 α → Mut α
  | setScale : Vec3 α → Mut α
  | setUniformScale : α → Mut α
  | scaleBy : Vec3 α → Mut α
  | scaleByUniform : α → Mut α

/-- Effect of one mutator: every mutator updates its field and sets
m_Dirty (Transform.cpp lines 15-107). -/
def applyMut (ops : GlmOps α M) (t : Transform α M) : Mut α → Transform α M
  | .setPosition v => { t with m_Position := v, m_Dirty := true }
  | .moveBy v => { t with m_Position := vecAdd ops t.m_Position v, m_Dirty := true }
  | .setRotation v => { t with m_Rotation := v, m_Dirty := true }
  | .rotateBy v => { t with m_Rotation := vecAdd ops t.m_Rotation v, m_Dirty := true }
  | .setScale v => { t with m_Scale := v, m_Dirty := true }
  | .setUniformScale f => { t with m_Scale := ⟨f, f, f⟩, m_Dirty := true }
  | .scaleBy v => { t with m_Scale := vecMul ops t.m_Scale v, m_Dirty := true }
  | .scaleByUniform f =>
    { t with m_Scale := vecMul ops t.m_Scale ⟨f, f, f⟩, m_Dirty := true }

/-- Transform::RecalculateModelMatrix (lines 130-140): the cached matrix
becomes translate(pos) * rotate(radians pitch, x-axis) * rotate(radians
yaw, y-axis) * rotate(radians roll, z-axis) * scale(s), left associated as
in C++, and the dirty flag is cleared. -/
def RecalculateModelMatrix (ops : GlmOps α M) (t : Transform α M) :
    Transform α M :=
  { t with
    m_CachedModelMatrix :=
      ops.mul
        (ops.mul
          (ops.mul
            (ops.mul (ops.translate t.m_Position)
              (ops.rotate (ops.radians t.m_Rotation.x) ⟨ops.one, ops.zero, ops.zero⟩))
            (ops.rotate (ops.radians t.m_Rotation.y) ⟨ops.zero, ops.one, ops.zero⟩))
          (ops.rotate (ops.radians t.m_Rotation.z) ⟨ops.zero, ops.zero, ops.one⟩))
        (ops.scaleMat t.m_Scale)
    m_Dirty := false }

/-- Camera handle providing projection and view matrices (BaseCamera.h). -/
structure BaseCamera (M : Type) where
  proj : M
  view : M

/-- Scene as reachable from a transform: the possibly null active camera
(Scene.cpp: the default constructor leaves m_ActiveCamera null). -/
structure SceneCtx (M : Type) where
  m_ActiveCamera : Option (BaseCamera M)

/-- Owning SceneObject as reachable from a transform: the possibly null
owning scene (SceneObject.cpp: m_OwningScene starts null until
Scene::AddObject). -/
structure OwnerCtx (M : Type) where
  m_OwningScene : Option (SceneCtx M)

/-- Outcome of Transform::ComputeModelViewProjection.  ok carries the two
out-parameters (MVP, then Model).  raisedError is the LOG_ERROR(..., true)
path, which throws a std::runtime_error (BaseLog.cpp lines 31-38).
nullSceneDeref is the undefined null dereference of
m_Owner->GetScene()->GetActiveCamera() when the owner has no scene;
nullCameraDeref is the undefined null dereference of
Camera->GetProjectionMatrix() when the scene has no active camera. -/
inductive MVPOutcome (M : Type) where
  | ok : M → M → MVPOutcome M
  | raisedError : MVPOutcome M
  | nullSceneDeref : MVPOutcome M
  | nullCameraDeref : MVPOutcome M

/-- Transform::ComputeModelViewProjection (lines 114-128, with
RecalculateModelMatrix and ApplyCachedModelMatrix inlined where they run).
Returns the outcome, the transform state afterwards, and the number of
RecalculateModelMatrix executions this call performed. -/
def ComputeModelViewProjection (ops : GlmOps α M)
    (owner : Option (OwnerCtx M)) (t : Transform α M) :
    MVPOutcome M × Transform α M × Nat :=
  match owner with
  | none => (MVPOutcome.raisedError, t, 0)
  | some ow =>
    match ow.m_OwningScene with
    | none => (MVPOutcome.nullSceneDeref, t, 0)
    | some sc =>
      let t1 := if t.m_Dirty then RecalculateModelMatrix ops t else t
      let n1 : Nat := if t.m_Dirty then 1 else 0
      match sc.m_ActiveCamera with
      | none => (MVPOutcome.nullCameraDeref, t1, n1)
      | some cam =>
        (MVPOutcome.ok
          (ops.mul (ops.mul cam.proj cam.view) t1.m_CachedModelMatrix)
          t1.m_CachedModelMatrix,
         t1, n1)

/-! Mesh content hash (BaseMesh::ComputeHash, Mesh.cpp lines 110-128).
Vertices carry a position triple plus normal and texture-coordinate
payloads; std::hash for float / size_t / uint32_t is an opaque external
function whose results are size_t values, so it is a parameter.  All
size_t arithmetic wraps modulo 2 to the 64. -/

/-- Vertex (Vertex.h): position, normal, texture coordinates.  The normal
and texture-coordinate types are arbitrary payloads because ComputeHash
never reads them. -/
structure Vertex (α β γ : Type) where
  Position : Vec3 α
  Normal : β
  TexCoords : γ

/-- One combine step of ComputeHash: hash ^= h(v) + 0x9e3779b9 +
(hash shifted left 6) + (hash shifted right 2), on size_t. -/
def hashStep (h v : Nat) : Nat :=
  h ^^^ ((v + 0x9e3779b9 + (h <<< 6) % 2 ^ 64 + h >>> 2) % 2 ^ 64)

/-- BaseMesh::ComputeHash: seed from the vertex count, fold the three
position components of every vertex, then fold every index.  Normals,
texture coordinates, textures and materials are never read. -/
def ComputeHash (hashSizeT : Nat → Nat) (hashFloat : α → Nat)
    (hashU32 : Nat → Nat) (vertices : List (Vertex α β γ))
    (indices : List Nat) : Nat :=
  let h0 := hashSizeT vertices.length % 2 ^ 64
  let h1 := vertices.foldl
    (fun h v =>
      hashStep (hashStep (hashStep h (hashFloat v.Position.x))
          (hashFloat v.Position.y))
        (hashFloat v.Position.z))
    h0
  indices.foldl (fun h i => hashStep h (hashU32 i)) h1

/-- BaseMesh payload relevant to hashing (Mesh.h): vertices, indices,
textures and an optional material; only the first two feed ComputeHash. -/
structure BaseMesh (α β γ Tex Mat : Type) where
  m_Vertices : List (Vertex α β γ)
  m_Indices : List Nat
  m_Textures : List Tex
  m_Material : Option Mat

/-- Hash of a mesh as computed by the constructor with bComputeHash set. -/
def meshHash (hashSizeT : Nat → Nat) (hashFloat : α → Nat)
    (hashU32 : Nat → Nat) (m : BaseMesh α β γ Tex Mat) : Nat :=
  ComputeHash hashSizeT hashFloat hashU32 m.m_Vertices m.m_Indices

/-! Concrete instantiations used by witnesses and counterexamples. -/

/-- Concrete glm interpretation over Nat, with operations chosen injective
enough that the witness evaluations are not degenerate. -/
def opsNat : GlmOps Nat Nat :=
  { mul := fun a b => 2 * a + 3 * b + 1
    translate := fun v => 5 * v.x + v.y + v.z
    rotate := fun a v => 7 * a + v.x + 2 * v.y + 3 * v.z
    scaleMat := fun v => 11 * v.x + v.y + v.z
    radians := fun a => a + 13
    add := Nat.add
    amul := Nat.mul
    zero := 0
    one := 1 }

/-- Ordinary object A: hash 1, one mesh. -/
def objA : Obj := ⟨0, 1, false, 1⟩

/-- Ordinary object B: same hash as A, one mesh. -/
def objB : Obj := ⟨1, 1, false, 1⟩

/-- First skybox-flagged object of the duplicate-skybox scene. -/
def skyA : Obj := ⟨10, 7, true, 1⟩

/-- Second skybox-flagged object of the duplicate-skybox scene. -/
def skyB : Obj := ⟨11, 7, true, 1⟩

/-- Flag heap in which every object is New, as after construction. -/
def allNew : Flags := fun _ => true

/-! Theorems.  First the capacity policy of the matrix store. -/

theorem Resize_objectCount (buf : MatrixBuffer) (n : Nat) :
    (buf.Resize n).objectCount
      = if n ≤ buf.objectCount then buf.objectCount else n * 2 := by
  unfold MatrixBuffer.Resize
  split <;> rfl

theorem Resize_le (buf : MatrixBuffer) (n : Nat) :
    buf.objectCount ≤ (buf.Resize n).objectCount := by
  rw [Resize_objectCount]
  split <;> omega

theorem Resize_ge (buf : MatrixBuffer) (n : Nat) :
    n ≤ (buf.Resize n).objectCount := by
  rw [Resize_objectCount]
  split <;> omega

theorem foldl_Resize_le (ns : List Nat) :
    ∀ buf : MatrixBuffer,
      buf.objectCount ≤ (ns.foldl MatrixBuffer.Resize buf).objectCount := by
  induction ns with
  | nil => intro buf; exact Nat.le_refl _
  | cons n rest ih =>
    intro buf
    exact Nat.le_trans (Resize_le buf n) (ih (buf.Resize n))

theorem foldl_Resize_ge (ns : List Nat) :
    ∀ buf : MatrixBuffer, ∀ n ∈ ns,
      n ≤ (ns.foldl MatrixBuffer.Resize buf).objectCount := by
  induction ns with
  | nil => intro buf n hn; cases hn
  | cons m rest ih =>
    intro buf n hn
    cases hn with
    | head =>
      exact Nat.le_trans (Resize_ge buf m) (foldl_Resize_le rest (buf.Resize m))
    | tail _ hmem => exact ih (buf.Resize m) n hmem

/-- C3: for every sequence of capacity requests starting from the empty
store, the final capacity dominates every request and capacity never
decreases; a request within capacity is a no-op, a request above capacity
sets the capacity to exactly twice the request; EnsureBufferCapacity
applies exactly the Resize policy; and 0 then Resize 10 gives capacity 20
while a following Resize 5 changes nothing. -/
theorem C3_capacity_policy :
    (∀ ns : List Nat, ∀ n ∈ ns,
        n ≤ (ns.foldl MatrixBuffer.Resize MatrixBuffer.empty).objectCount)
    ∧ (∀ (buf : MatrixBuffer) (n : Nat),
        buf.objectCount ≤ (buf.Resize n).objectCount)
    ∧ (∀ (buf : MatrixBuffer) (n : Nat), n ≤ buf.objectCount →
        buf.Resize n = buf)
    ∧ (∀ (buf : MatrixBuffer) (n : Nat), buf.objectCount < n →
        (buf.Resize n).objectCount = 2 * n)
    ∧ (∀ (buf : MatrixBuffer) (n : Nat),
        (EnsureBufferCapacity buf n).2 = buf.Resize n)
    ∧ (MatrixBuffer.empty.Resize 10).objectCount = 20
    ∧ (MatrixBuffer.empty.Resize 10).Resize 5 = MatrixBuffer.empty.Resize 10 := by
  refine ⟨fun ns => foldl_Resize_ge ns MatrixBuffer.empty, Resize_le, ?_, ?_, ?_,
    by decide, by decide⟩
  · intro buf n h
    unfold MatrixBuffer.Resize
    simp [h]
  · intro buf n h
    have := Resize_objectCount buf n
    rw [if_neg (by omega)] at this
    omega
  · intro buf n
    show (if buf.allocated = false ∨ buf.objectCount < n then buf.Resize n else buf)
        = buf.Resize n
    split
    · rfl
    · rename_i hcond
      push_neg at hcond
      unfold MatrixBuffer.Resize
      rw [if_pos (by omega)]

/-- Witness for C3: the empty store has capacity below 10, and resizing to
10 yields capacity exactly 2 * 10. -/
theorem C3_capacity_policy_witness :
    MatrixBuffer.empty.objectCount < 10
    ∧ (MatrixBuffer.empty.Resize 10).objectCount = 2 * 10 :=
  ⟨by decide, C3_capacity_policy.2.2.2.1 MatrixBuffer.empty 10 (by decide)⟩

/-! Transform cache. -/

theorem applyMut_dirty (ops : GlmOps α M) (t : Transform α M) (m : Mut α) :
    (applyMut ops t m).m_Dirty = true := by
  cases m <;> rfl

theorem foldl_applyMut_dirty (ops : GlmOps α M) (muts : List (Mut α)) :
    ∀ t : Transform α M, muts ≠ [] →
      (muts.foldl (applyMut ops) t).m_Dirty = true := by
  induction muts with
  | nil => intro t h; exact absurd rfl h
  | cons m rest ih =>
    intro t _
    cases rest with
    | nil => exact applyMut_dirty ops t m
    | cons m2 r2 => exact ih (applyMut ops t m) (by simp)

/-- Evaluation of ComputeModelViewProjection on the fully attached owner
chain: success, with the state recomputed exactly when dirty. -/
theorem CMVP_some (ops : GlmOps α M) (cam : BaseCamera M) (t : Transform α M) :
    ComputeModelViewProjection ops (some ⟨some ⟨some cam⟩⟩) t
      = (MVPOutcome.ok
          (ops.mul (ops.mul cam.proj cam.view)
            (if t.m_Dirty then RecalculateModelMatrix ops t else t).m_CachedModelMatrix)
          ((if t.m_Dirty then RecalculateModelMatrix ops t else t).m_CachedModelMatrix),
         (if t.m_Dirty then RecalculateModelMatrix ops t else t),
         if t.m_Dirty then 1 else 0) := rfl

theorem CMVP_clean_dirty_flag (ops : GlmOps α M) (t : Transform α M) :
    (if t.m_Dirty then RecalculateModelMatrix ops t else t).m_Dirty = false := by
  cases hb : t.m_Dirty
  · simp [hb]
  · simp [hb, RecalculateModelMatrix]

/-- C4: when the owner is attached to a scene with an active camera,
ComputeModelViewProjection succeeds, the MVP out-parameter equals
projection * view * model with the model out-parameter equal to the cached
matrix and the dirty flag clear afterwards; a dirty query recomputes the
model matrix exactly once as translate * rotateX * rotateY * rotateZ *
scale (pitch then yaw then roll, angles in radians); a clean query leaves
the state untouched with zero recomputations, so a repeated query returns
the identical result with zero recomputations; and any nonempty sequence
of mutators between queries causes exactly one recomputation on the next
query. -/
theorem C4_transform_cache {α M : Type} (ops : GlmOps α M) (sc : SceneCtx M)
    (cam : BaseCamera M) (t : Transform α M)
    (hcam : sc.m_ActiveCamera = some cam) :
    (∀ mvp model t' n,
        ComputeModelViewProjection ops (some ⟨some sc⟩) t
          = (MVPOutcome.ok mvp model, t', n) →
        mvp = ops.mul (ops.mul cam.proj cam.view) model
        ∧ model = t'.m_CachedModelMatrix
        ∧ t'.m_Dirty = false)
    ∧ (t.m_Dirty = true →
        (ComputeModelViewProjection ops (some ⟨some sc⟩) t).2.2 = 1
        ∧ (ComputeModelViewProjection ops (some ⟨some sc⟩) t).2.1.m_CachedModelMatrix
          = ops.mul
              (ops.mul
                (ops.mul
                  (ops.mul (ops.translate t.m_Position)
                    (ops.rotate (ops.radians t.m_Rotation.x)
                      ⟨ops.one, ops.zero, ops.zero⟩))
                  (ops.rotate (ops.radians t.m_Rotation.y)
                    ⟨ops.zero, ops.one, ops.zero⟩))
                (ops.rotate (ops.radians t.m_Rotation.z)
                  ⟨ops.zero, ops.zero, ops.one⟩))
              (ops.scaleMat t.m_Scale))
    ∧ (t.m_Dirty = false →
        (ComputeModelViewProjection ops (some ⟨some sc⟩) t).2.1 = t
        ∧ (ComputeModelViewProjection ops (some ⟨some sc⟩) t).2.2 = 0)
    ∧ (ComputeModelViewProjection ops (some ⟨some sc⟩)
          (ComputeModelViewProjection ops (some ⟨some sc⟩) t).2.1
        = ((ComputeModelViewProjection ops (some ⟨some sc⟩) t).1,
           (ComputeModelViewProjection ops (some ⟨some sc⟩) t).2.1, 0))
    ∧ (∀ muts : List (Mut α), muts ≠ [] →
        (ComputeModelViewProjection ops (some ⟨some sc⟩)
            (muts.foldl (applyMut ops)
              (ComputeModelViewProjection ops (some ⟨some sc⟩) t).2.1)).2.2 = 1) := by
  have hsc : sc = ⟨some cam⟩ := by
    cases sc
    simpa using hcam
  subst hsc
  have hclean := CMVP_clean_dirty_flag ops t
  refine ⟨?_, ?_, ?_, ?_, ?_⟩
  · intro mvp model t' n heq
    rw [CMVP_some] at heq
    simp only [Prod.mk.injEq] at heq
    obtain ⟨h1, h2, h3⟩ := heq
    injection h1 with hmvp hmodel
    subst hmvp hmodel h2
    exact ⟨rfl, rfl, hclean⟩
  · intro hd
    simp only [CMVP_some]
    simp [hd, RecalculateModelMatrix]
  · intro hd
    simp only [CMVP_some]
    simp [hd]
  · simp only [CMVP_some, hclean]
    simp
  · intro muts hne
    have hdirty := foldl_applyMut_dirty ops muts
      ((ComputeModelViewProjection ops (some ⟨some ⟨some cam⟩⟩) t).2.1) hne
    simp only [CMVP_some]
    simp only [CMVP_some] at hdirty
    simp [hdirty]

/-- Witness for C4 at a concrete camera and the freshly constructed (hence
dirty) transform over the Nat interpretation. -/
theorem C4_transform_cache_witness :
    (SceneCtx.mk (some ⟨100, 200⟩) : SceneCtx Nat).m_ActiveCamera = some ⟨100, 200⟩
    ∧ ((Transform.init opsNat 999).m_Dirty = true →
        (ComputeModelViewProjection opsNat (some ⟨some ⟨some ⟨100, 200⟩⟩⟩)
            (Transform.init opsNat 999)).2.2 = 1
        ∧ (ComputeModelViewProjection opsNat (some ⟨some ⟨some ⟨100, 200⟩⟩⟩)
            (Transform.init opsNat 999)).2.1.m_CachedModelMatrix
          = opsNat.mul
              (opsNat.mul
                (opsNat.mul
                  (opsNat.mul (opsNat.translate (Transform.init opsNat 999).m_Position)
                    (opsNat.rotate (opsNat.radians (Transform.init opsNat 999).m_Rotation.x)
                      ⟨opsNat.one, opsNat.zero, opsNat.zero⟩))
                  (opsNat.rotate (opsNat.radians (Transform.init opsNat 999).m_Rotation.y)
                    ⟨opsNat.zero, opsNat.one, opsNat.zero⟩))
                (opsNat.rotate (opsNat.radians (Transform.init opsNat 999).m_Rotation.z)
                  ⟨opsNat.zero, opsNat.zero, opsNat.one⟩))
              (opsNat.scaleMat (Transform.init opsNat 999).m_Scale)) :=
  ⟨rfl, (C4_transform_cache opsNat ⟨some ⟨100, 200⟩⟩ ⟨100, 200⟩
      (Transform.init opsNat 999) rfl).2.1⟩

/-- C7 counterexample: a transform whose owner exists but is attached to no
scene does not raise the fatal error; the call is the undefined null
dereference of GetScene()->GetActiveCamera(), with unchanged state. -/
theorem C7_counterexample :
    ComputeModelViewProjection opsNat (some ⟨none⟩) (Transform.init opsNat 999)
      = (MVPOutcome.nullSceneDeref, Transform.init opsNat 999, 0)
    ∧ (MVPOutcome.nullSceneDeref : MVPOutcome Nat) ≠ MVPOutcome.raisedError := by
  exact ⟨rfl, fun h => MVPOutcome.noConfusion h⟩

/-- C7 amended: only a transform with a null owner raises the fatal thrown
error (with no state change); an owner attached to no scene yields the
null-scene dereference with no state change; an owning scene without an
active camera yields the null-camera dereference, after the model matrix
was already recomputed when dirty. -/
theorem C7_camera_context_errors {α M : Type} (ops : GlmOps α M)
    (t : Transform α M) :
    ComputeModelViewProjection ops none t = (MVPOutcome.raisedError, t, 0)
    ∧ (∀ ow : OwnerCtx M, ow.m_OwningScene = none →
        ComputeModelViewProjection ops (some ow) t
          = (MVPOutcome.nullSceneDeref, t, 0))
    ∧ (∀ sc : SceneCtx M, sc.m_ActiveCamera = none →
        ComputeModelViewProjection ops (some ⟨some sc⟩) t
          = (MVPOutcome.nullCameraDeref,
             (if t.m_Dirty then RecalculateModelMatrix ops t else t),
             if t.m_Dirty then 1 else 0)) := by
  refine ⟨rfl, ?_, ?_⟩
  · intro ow how
    cases ow
    simp only [] at how
    subst how
    rfl
  · intro sc hsc
    cases sc
    simp only [] at hsc
    subst hsc
    rfl

/-- Witness for C7 amended: concrete unattached owner and concrete
camera-free scene over the Nat interpretation. -/
theorem C7_camera_context_errors_witness :
    ((OwnerCtx.mk none : OwnerCtx Nat).m_OwningScene = none
      ∧ ComputeModelViewProjection opsNat (some ⟨none⟩) (Transform.init opsNat 999)
          = (MVPOutcome.nullSceneDeref, Transform.init opsNat 999, 0))
    ∧ ((SceneCtx.mk none : SceneCtx Nat).m_ActiveCamera = none
      ∧ ComputeModelViewProjection opsNat (some ⟨some ⟨none⟩⟩) (Transform.init opsNat 999)
          = (MVPOutcome.nullCameraDeref,
             (if (Transform.init opsNat 999).m_Dirty then
                RecalculateModelMatrix opsNat (Transform.init opsNat 999)
              else Transform.init opsNat 999),
             if (Transform.init opsNat 999).m_Dirty then 1 else 0)) :=
  ⟨⟨rfl, (C7_camera_context_errors opsNat (Transform.init opsNat 999)).2.1 ⟨none⟩ rfl⟩,
   ⟨rfl, (C7_camera_context_errors opsNat (Transform.init opsNat 999)).2.2 ⟨none⟩ rfl⟩⟩

/-! Batching: structure of the map built by BatchSceneObjects. -/

theorem lookupBatch_cons (k' : Nat) (b : List Obj) (rest : List (Nat × List Obj))
    (k : Nat) :
    lookupBatch ((k', b) :: rest) k = if k = k' then b else lookupBatch rest k := rfl

theorem flatBatches_cons (b : Nat × List Obj) (rest : List (Nat × List Obj)) :
    flatBatches (b :: rest) = b.2 ++ flatBatches rest := rfl

theorem lastFlagged_cons (o : Obj) (rest : List Obj) :
    lastFlagged (o :: rest)
      = (match lastFlagged rest with
         | some s => some s
         | none => if o.isSkybox then some o else none) := rfl

theorem keysSortedB_tail {k : Nat} {b : List Obj} {m : List (Nat × List Obj)}
    (h : keysSortedB ((k, b) :: m) = true) : keysSortedB m = true := by
  cases m with
  | nil => rfl
  | cons p rest =>
    obtain ⟨k2, b2⟩ := p
    unfold keysSortedB at h
    exact (Bool.and_eq_true_iff.mp h).2

theorem keysSortedB_head_lt :
    ∀ (m : List (Nat × List Obj)) (k : Nat) (b : List Obj),
      keysSortedB ((k, b) :: m) = true → ∀ p ∈ m, k < p.1 := by
  intro m
  induction m with
  | nil => intro k b _ p hp; cases hp
  | cons q rest ih =>
    intro k b h p hp
    obtain ⟨k2, b2⟩ := q
    unfold keysSortedB at h
    obtain ⟨hlt, hrest⟩ := Bool.and_eq_true_iff.mp h
    have hlt' : k < k2 := of_decide_eq_true hlt
    cases hp with
    | head => exact hlt'
    | tail _ hp2 => exact Nat.lt_trans hlt' (ih k2 b2 hrest p hp2)

theorem keysSortedB_cons_of {k : Nat} {b : List Obj} {m : List (Nat × List Obj)}
    (hm : keysSortedB m = true) (hlt : ∀ p ∈ m, k < p.1) :
    keysSortedB ((k, b) :: m) = true := by
  cases m with
  | nil => rfl
  | cons q rest =>
    obtain ⟨k2, b2⟩ := q
    unfold keysSortedB
    refine Bool.and_eq_true_iff.mpr ⟨decide_eq_true ?_, hm⟩
    exact hlt (k2, b2) (List.mem_cons_self _ _)

theorem keysSortedB_bucket_irrel (k : Nat) (b1 b2 : List Obj)
    (m : List (Nat × List Obj)) :
    keysSortedB ((k, b1) :: m) = keysSortedB ((k, b2) :: m) := by
  cases m with
  | nil => rfl
  | cons q rest => rfl

theorem mem_insertBatch :
    ∀ (m : List (Nat × List Obj)) (k : Nat) (o : Obj) (p : Nat × List Obj),
      p ∈ insertBatch m k o → p ∈ m ∨ p.1 = k := by
  intro m
  induction m with
  | nil =>
    intro k o p hp
    unfold insertBatch at hp
    cases hp with
    | head => right; rfl
    | tail _ h2 => cases h2
  | cons q rest ih =>
    intro k o p hp
    obtain ⟨k', b⟩ := q
    unfold insertBatch at hp
    by_cases h1 : k < k'
    · rw [if_pos h1] at hp
      cases hp with
      | head => right; rfl
      | tail _ h2 => left; exact h2
    · rw [if_neg h1] at hp
      by_cases h2 : k = k'
      · rw [if_pos h2] at hp
        cases hp with
        | head => right; exact h2.symm
        | tail _ h3 => left; exact List.mem_cons_of_mem _ h3
      · rw [if_neg h2] at hp
        cases hp with
        | head => left; exact List.mem_cons_self _ _
        | tail _ h3 =>
          cases ih k o p h3 with
          | inl h4 => left; exact List.mem_cons_of_mem _ h4
          | inr h4 => right; exact h4

theorem insertBatch_sorted :
    ∀ (m : List (Nat × List Obj)) (k : Nat) (o : Obj),
      keysSortedB m = true → keysSortedB (insertBatch m k o) = true := by
  intro m
  induction m with
  | nil => intro k o _; rfl
  | cons q rest ih =>
    intro k o hm
    obtain ⟨k', b⟩ := q
    unfold insertBatch
    by_cases h1 : k < k'
    · rw [if_pos h1]
      refine keysSortedB_cons_of hm ?_
      intro p hp
      cases hp with
      | head => exact h1
      | tail _ h3 =>
        exact Nat.lt_trans h1 (keysSortedB_head_lt rest k' b hm p h3)
    · rw [if_neg h1]
      by_cases h2 : k = k'
      · rw [if_pos h2, keysSortedB_bucket_irrel k' (b ++ [o]) b]
        exact hm
      · rw [if_neg h2]
        refine keysSortedB_cons_of (ih k o (keysSortedB_tail hm)) ?_
        intro p hp
        cases mem_insertBatch rest k o p hp with
        | inl h3 => exact keysSortedB_head_lt rest k' b hm p h3
        | inr h3 => rw [h3]; omega

theorem lookupBatch_eq_nil_of_lt (k : Nat) :
    ∀ m : List (Nat × List Obj), (∀ p ∈ m, k < p.1) → lookupBatch m k = [] := by
  intro m
  induction m with
  | nil => intro _; rfl
  | cons q rest ih =>
    intro hlt
    obtain ⟨k', b⟩ := q
    have h1 : k < k' := hlt (k', b) (List.mem_cons_self _ _)
    rw [lookupBatch_cons, if_neg (by omega)]
    exact ih fun p hp => hlt p (List.mem_cons_of_mem _ hp)

theorem lookupBatch_insert_self :
    ∀ (m : List (Nat × List Obj)) (k : Nat) (o : Obj),
      keysSortedB m = true →
      lookupBatch (insertBatch m k o) k = lookupBatch m k ++ [o] := by
  intro m
  induction m with
  | nil => intro k o _; simp [insertBatch, lookupBatch]
  | cons q rest ih =>
    intro k o hm
    obtain ⟨k', b⟩ := q
    unfold insertBatch
    by_cases h1 : k < k'
    · rw [if_pos h1]
      have hnil : lookupBatch rest k = [] :=
        lookupBatch_eq_nil_of_lt k rest
          (fun p hp => Nat.lt_trans h1 (keysSortedB_head_lt rest k' b hm p hp))
      rw [lookupBatch_cons, if_pos rfl, lookupBatch_cons, if_neg (by omega), hnil]
      rfl
    · rw [if_neg h1]
      by_cases h2 : k = k'
      · rw [if_pos h2, lookupBatch_cons, if_pos h2, lookupBatch_cons, if_pos h2]
      · rw [if_neg h2, lookupBatch_cons, if_neg h2, lookupBatch_cons, if_neg h2]
        exact ih k o (keysSortedB_tail hm)

theorem lookupBatch_insert_ne :
    ∀ (m : List (Nat × List Obj)) (k : Nat) (o : Obj) (k' : Nat), k' ≠ k →
      lookupBatch (insertBatch m k o) k' = lookupBatch m k' := by
  intro m
  induction m with
  | nil =>
    intro k o k' hne
    simp [insertBatch, lookupBatch, hne]
  | cons q rest ih =>
    intro k o k' hne
    obtain ⟨k2, b⟩ := q
    unfold insertBatch
    by_cases h1 : k < k2
    · rw [if_pos h1, lookupBatch_cons, if_neg hne]
    · rw [if_neg h1]
      by_cases h2 : k = k2
      · subst h2
        rw [if_pos rfl, lookupBatch_cons, if_neg hne, lookupBatch_cons, if_neg hne]
      · rw [if_neg h2, lookupBatch_cons, lookupBatch_cons]
        by_cases h3 : k' = k2
        · rw [if_pos h3, if_pos h3]
        · rw [if_neg h3, if_neg h3]
          exact ih k o k' hne

theorem mem_batch_eq_lookup :
    ∀ (m : List (Nat × List Obj)) (h : Nat) (b : List Obj),
      keysSortedB m = true → (h, b) ∈ m → lookupBatch m h = b := by
  intro m
  induction m with
  | nil => intro h b _ hmem; cases hmem
  | cons q rest ih =>
    intro h b hs hmem
    obtain ⟨k, bk⟩ := q
    cases hmem with
    | head =>
      rw [lookupBatch_cons, if_pos rfl]
    | tail _ h2 =>
      have hlt := keysSortedB_head_lt rest k bk hs (h, b) h2
      have hlt' : k < h := by simpa using hlt
      rw [lookupBatch_cons, if_neg (by omega)]
      exact ih h b (keysSortedB_tail hs) h2

theorem mem_of_mem_lookupBatch :
    ∀ (m : List (Nat × List Obj)) (h : Nat) (o : Obj),
      o ∈ lookupBatch m h → o ∈ flatBatches m := by
  intro m
  induction m with
  | nil => intro h o ho; cases ho
  | cons q rest ih =>
    intro h o ho
    obtain ⟨k, b⟩ := q
    unfold lookupBatch at ho
    unfold flatBatches
    by_cases h1 : h = k
    · rw [if_pos h1] at ho
      exact List.mem_append_left _ ho
    · rw [if_neg h1] at ho
      exact List.mem_append_right _ (ih h o ho)

theorem mem_flatBatches :
    ∀ (m : List (Nat × List Obj)) (o : Obj),
      o ∈ flatBatches m → ∃ p ∈ m, o ∈ p.2 := by
  intro m
  induction m with
  | nil => intro o ho; cases ho
  | cons q rest ih =>
    intro o ho
    unfold flatBatches at ho
    cases List.mem_append.mp ho with
    | inl h1 => exact ⟨q, List.mem_cons_self _ _, h1⟩
    | inr h1 =>
      obtain ⟨p, hp, hop⟩ := ih o h1
      exact ⟨p, List.mem_cons_of_mem _ hp, hop⟩

theorem flatBatches_insert_length :
    ∀ (m : List (Nat × List Obj)) (k : Nat) (o : Obj),
      (flatBatches (insertBatch m k o)).length = (flatBatches m).length + 1 := by
  intro m
  induction m with
  | nil => intro k o; rfl
  | cons q rest ih =>
    intro k o
    obtain ⟨k', b⟩ := q
    unfold insertBatch
    by_cases h1 : k < k'
    · rw [if_pos h1]
      simp only [flatBatches_cons, List.length_append, List.length_cons,
        List.length_nil]
      omega
    · rw [if_neg h1]
      by_cases h2 : k = k'
      · rw [if_pos h2]
        simp only [flatBatches_cons, List.length_append, List.length_cons,
          List.length_nil]
        omega
      · rw [if_neg h2]
        simp only [flatBatches_cons, List.length_append, ih k o]
        omega

theorem batch_fold_spec :
    ∀ (objs : List Obj) (acc : List (Nat × List Obj) × Option Obj),
      keysSortedB acc.1 = true →
      keysSortedB (objs.foldl batchStep acc).1 = true
      ∧ (∀ h, lookupBatch (objs.foldl batchStep acc).1 h
          = lookupBatch acc.1 h
            ++ objs.filter (fun o => !o.isSkybox && o.hash == h))
      ∧ (objs.foldl batchStep acc).2
          = (match lastFlagged objs with
             | some s => some s
             | none => acc.2)
      ∧ (flatBatches (objs.foldl batchStep acc).1).length
          = (flatBatches acc.1).length
            + (objs.filter (fun o => !o.isSkybox)).length := by
  intro objs
  induction objs with
  | nil =>
    intro acc hs
    refine ⟨hs, ?_, ?_, ?_⟩ <;> simp [lastFlagged]
  | cons o rest ih =>
    intro acc hs
    rw [List.foldl_cons]
    by_cases hsky : o.isSkybox
    · have hstep : batchStep acc o = (acc.1, some o) := by
        unfold batchStep
        rw [if_pos hsky]
      rw [hstep]
      obtain ⟨c1, c2, c3, c4⟩ := ih (acc.1, some o) hs
      refine ⟨c1, ?_, ?_, ?_⟩
      · intro h
        rw [c2 h]
        simp [List.filter_cons, hsky]
      · rw [c3, lastFlagged_cons]
        cases hrest : lastFlagged rest with
        | some s => simp
        | none => simp [hsky]
      · rw [c4]
        simp [List.filter_cons, hsky]
    · have hstep : batchStep acc o = (insertBatch acc.1 o.hash o, acc.2) := by
        unfold batchStep
        rw [if_neg hsky]
      rw [hstep]
      have hs2 : keysSortedB (insertBatch acc.1 o.hash o) = true :=
        insertBatch_sorted acc.1 o.hash o hs
      obtain ⟨c1, c2, c3, c4⟩ := ih (insertBatch acc.1 o.hash o, acc.2) hs2
      refine ⟨c1, ?_, ?_, ?_⟩
      · intro h
        rw [c2 h]
        by_cases hh : o.hash = h
        · subst hh
          rw [lookupBatch_insert_self acc.1 o.hash o hs]
          simp [List.filter_cons, hsky]
        · rw [lookupBatch_insert_ne acc.1 o.hash o h (fun he => hh he.symm)]
          simp [List.filter_cons, hsky, hh]
      · rw [c3, lastFlagged_cons]
        cases hrest : lastFlagged rest with
        | some s => simp
        | none => simp [hsky]
      · rw [c4, flatBatches_insert_length acc.1 o.hash o]
        simp [List.filter_cons, hsky]
        omega

theorem BatchSceneObjects_sorted (objs : List Obj) :
    keysSortedB (BatchSceneObjects objs).1 = true :=
  (batch_fold_spec objs ([], none) rfl).1

theorem BatchSceneObjects_lookup (objs : List Obj) (h : Nat) :
    lookupBatch (BatchSceneObjects objs).1 h
      = objs.filter (fun o => !o.isSkybox && o.hash == h) := by
  have := (batch_fold_spec objs ([], none) rfl).2.1 h
  simpa [lookupBatch] using this

theorem BatchSceneObjects_sky (objs : List Obj) :
    (BatchSceneObjects objs).2 = lastFlagged objs := by
  have h := (batch_fold_spec objs ([], none) rfl).2.2.1
  unfold BatchSceneObjects
  rw [h]
  cases lastFlagged objs <;> rfl

theorem BatchSceneObjects_flatLength (objs : List Obj) :
    (flatBatches (BatchSceneObjects objs).1).length
      = (objs.filter (fun o => !o.isSkybox)).length := by
  have := (batch_fold_spec objs ([], none) rfl).2.2.2
  simpa [flatBatches] using this

theorem BatchSceneObjects_mem_eq_filter (objs : List Obj) (h : Nat)
    (b : List Obj) (hmem : (h, b) ∈ (BatchSceneObjects objs).1) :
    b = objs.filter (fun o => !o.isSkybox && o.hash == h) := by
  rw [← BatchSceneObjects_lookup objs h]
  exact (mem_batch_eq_lookup (BatchSceneObjects objs).1 h b
    (BatchSceneObjects_sorted objs) hmem).symm

theorem lastFlagged_mem :
    ∀ (objs : List Obj) (s : Obj), lastFlagged objs = some s →
      s ∈ objs ∧ s.isSkybox = true := by
  intro objs
  induction objs with
  | nil => intro s h; cases h
  | cons o rest ih =>
    intro s h
    unfold lastFlagged at h
    cases hrest : lastFlagged rest with
    | some s2 =>
      rw [hrest] at h
      injection h with h2
      obtain ⟨hm, hf⟩ := ih s2 hrest
      rw [← h2]
      exact ⟨List.mem_cons_of_mem _ hm, hf⟩
    | none =>
      rw [hrest] at h
      by_cases hsky : o.isSkybox
      · rw [if_pos hsky] at h
        injection h with h2
        rw [← h2]
        exact ⟨List.mem_cons_self _ _, hsky⟩
      · rw [if_neg hsky] at h
        cases h

theorem lastFlagged_none :
    ∀ objs : List Obj, lastFlagged objs = none →
      objs.filter (fun o => o.isSkybox) = [] := by
  intro objs
  induction objs with
  | nil => intro _; rfl
  | cons o rest ih =>
    intro h
    unfold lastFlagged at h
    cases hrest : lastFlagged rest with
    | some s2 => rw [hrest] at h; cases h
    | none =>
      rw [hrest] at h
      by_cases hsky : o.isSkybox
      · rw [if_pos hsky] at h; cases h
      · simp [List.filter_cons, hsky, ih hrest]

theorem filter_isSkybox_length_split (objs : List Obj) :
    (objs.filter (fun o => !o.isSkybox)).length
      + (objs.filter (fun o => o.isSkybox)).length = objs.length := by
  induction objs with
  | nil => rfl
  | cons o rest ih =>
    by_cases hsky : o.isSkybox <;> simp [List.filter_cons, hsky] <;> omega

theorem lastFlagged_some_filter_pos (objs : List Obj) (s : Obj)
    (h : lastFlagged objs = some s) :
    0 < (objs.filter (fun o => o.isSkybox)).length := by
  obtain ⟨hm, hf⟩ := lastFlagged_mem objs s h
  have : s ∈ objs.filter (fun o => o.isSkybox) :=
    List.mem_filter.mpr ⟨hm, by simp [hf]⟩
  exact List.length_pos.mpr (fun he => by rw [he] at this; cases this)

/-! Mesh content hash. -/

theorem foldl_hash_positions (hf : α → Nat) :
    ∀ (v₁ v₂ : List (Vertex α β γ)) (h : Nat),
      v₁.map (fun v => v.Position) = v₂.map (fun v => v.Position) →
      v₁.foldl
          (fun h v =>
            hashStep (hashStep (hashStep h (hf v.Position.x)) (hf v.Position.y))
              (hf v.Position.z)) h
        = v₂.foldl
            (fun h v =>
              hashStep (hashStep (hashStep h (hf v.Position.x)) (hf v.Position.y))
                (hf v.Position.z)) h := by
  intro v₁
  induction v₁ with
  | nil =>
    intro v₂ h hm
    cases v₂ with
    | nil => rfl
    | cons w ws => simp at hm
  | cons v vs ih =>
    intro v₂ h hm
    cases v₂ with
    | nil => simp at hm
    | cons w ws =>
      simp only [List.map_cons, List.cons.injEq] at hm
      obtain ⟨hpos, htail⟩ := hm
      simp only [List.foldl_cons, hpos]
      exact ih ws _ htail

/-- C10: the mesh content hash reads only the vertex count, the three
position components of each vertex, and the index values; two meshes with
equal position lists and equal index lists hash equally whatever their
normals, texture coordinates, textures and materials are, and two
non-background objects with equal hashes always land in the same batch
bucket. -/
theorem C10_hash_positions_only {α β γ Tex Mat : Type} :
    (∀ (hashSizeT : Nat → Nat) (hashFloat : α → Nat) (hashU32 : Nat → Nat)
        (m₁ m₂ : BaseMesh α β γ Tex Mat),
        m₁.m_Vertices.map (fun v => v.Position)
          = m₂.m_Vertices.map (fun v => v.Position) →
        m₁.m_Indices = m₂.m_Indices →
        meshHash hashSizeT hashFloat hashU32 m₁
          = meshHash hashSizeT hashFloat hashU32 m₂)
    ∧ (∀ (objs : List Obj) (o₁ o₂ : Obj), o₁ ∈ objs → o₂ ∈ objs →
        o₁.isSkybox = false → o₂.isSkybox = false → o₁.hash = o₂.hash →
        o₁ ∈ lookupBatch (BatchSceneObjects objs).1 o₁.hash
        ∧ o₂ ∈ lookupBatch (BatchSceneObjects objs).1 o₁.hash) := by
  constructor
  · intro hs hf hu m₁ m₂ hpos hidx
    have hlen : m₁.m_Vertices.length = m₂.m_Vertices.length := by
      have := congrArg List.length hpos
      simpa using this
    simp only [meshHash, ComputeHash]
    rw [hlen, hidx]
    rw [foldl_hash_positions hf m₁.m_Vertices m₂.m_Vertices _ hpos]
  · intro objs o₁ o₂ h1 h2 hs1 hs2 hh
    rw [BatchSceneObjects_lookup]
    constructor
    · simp [List.mem_filter, h1, hs1]
    · simp [List.mem_filter, h2, hs2, hh]

/-- Witness for C10: two one-vertex meshes agreeing on position and index
data while differing in normal, texture coordinate, texture list and
material hash equally. -/
theorem C10_hash_positions_only_witness :
    (([⟨⟨1, 2, 3⟩, 10, 20⟩] : List (Vertex Nat Nat Nat)).map (fun v => v.Position)
        = ([⟨⟨1, 2, 3⟩, 99, 77⟩] : List (Vertex Nat Nat Nat)).map (fun v => v.Position))
    ∧ meshHash id id id
        (⟨[⟨⟨1, 2, 3⟩, 10, 20⟩], [0, 1], [4], some 5⟩ : BaseMesh Nat Nat Nat Nat Nat)
      = meshHash id id id
          (⟨[⟨⟨1, 2, 3⟩, 99, 77⟩], [0, 1], [6], none⟩ : BaseMesh Nat Nat Nat Nat Nat) :=
  ⟨by decide,
   C10_hash_positions_only.1 id id id
     ⟨[⟨⟨1, 2, 3⟩, 10, 20⟩], [0, 1], [4], some 5⟩
     ⟨[⟨⟨1, 2, 3⟩, 99, 77⟩], [0, 1], [6], none⟩ (by decide) (by decide)⟩

/-! Per-frame processing: flags, pass events, writes and draws. -/

theorem setFlag_self (f : Flags) (i : Nat) (b : Bool) : setFlag f i b i = b := by
  simp [setFlag]

theorem setFlag_other (f : Flags) (i : Nat) (b : Bool) (j : Nat) (h : j ≠ i) :
    setFlag f i b j = f j := by
  simp [setFlag, h]

theorem countEv_append (e : Ev) (l1 l2 : List Ev) :
    countEv e (l1 ++ l2) = countEv e l1 + countEv e l2 := by
  induction l1 with
  | nil => simp [countEv]
  | cons x rest ih =>
    show (if x = e then 1 else 0) + countEv e (rest ++ l2)
        = ((if x = e then 1 else 0) + countEv e rest) + countEv e l2
    rw [ih]
    omega

theorem countEv_eq_zero (e : Ev) (l : List Ev) (h : ∀ x ∈ l, x ≠ e) :
    countEv e l = 0 := by
  induction l with
  | nil => rfl
  | cons x rest ih =>
    unfold countEv
    rw [if_neg (h x (List.mem_cons_self _ _)),
      ih fun y hy => h y (List.mem_cons_of_mem _ hy)]

theorem filter_eq_self_of (p : Ev → Bool) (l : List Ev)
    (h : ∀ x ∈ l, p x = true) : l.filter p = l := by
  induction l with
  | nil => rfl
  | cons x rest ih =>
    rw [List.filter_cons, if_pos (h x (List.mem_cons_self _ _)),
      ih fun y hy => h y (List.mem_cons_of_mem _ hy)]

theorem filter_eq_nil_of (p : Ev → Bool) (l : List Ev)
    (h : ∀ x ∈ l, p x = false) : l.filter p = [] := by
  induction l with
  | nil => rfl
  | cons x rest ih =>
    rw [List.filter_cons, if_neg (by simp [h x (List.mem_cons_self _ _)]),
      ih fun y hy => h y (List.mem_cons_of_mem _ hy)]

theorem ProcessObjectForMVP_new (flags : Flags) (o : Obj) (idx : Nat)
    (h : flags o.id = true) :
    ProcessObjectForMVP flags o idx
      = ([Ev.firstPass o.id, Ev.bindBuffer, Ev.secondPass o.id,
          Ev.write idx o.id, Ev.write (idx + 1) o.id],
         setFlag flags o.id false, idx + 2) := by
  unfold ProcessObjectForMVP
  rw [if_pos h]

theorem ProcessObjectForMVP_old (flags : Flags) (o : Obj) (idx : Nat)
    (h : flags o.id = false) :
    ProcessObjectForMVP flags o idx
      = ([Ev.write idx o.id, Ev.write (idx + 1) o.id], flags, idx + 2) := by
  unfold ProcessObjectForMVP
  rw [if_neg (by simp [h])]

theorem processList_flags_other :
    ∀ (L : List Obj) (f : Flags) (i oid : Nat), oid ∉ L.map Obj.id →
      (processList f i L).2.1 oid = f oid := by
  intro L
  induction L with
  | nil => intro f i oid _; rfl
  | cons o rest ih =>
    intro f i oid hoid
    have h1 : oid ≠ o.id := by
      intro he
      exact hoid (by rw [he]; exact List.mem_map_of_mem _ (List.mem_cons_self _ _))
    have h2 : oid ∉ rest.map Obj.id := by
      intro he
      exact hoid (by simp [he])
    simp only [processList]
    cases hb : f o.id with
    | true =>
      simp only [ProcessObjectForMVP_new f o i hb]
      rw [ih _ _ oid h2]
      exact setFlag_other f o.id false oid h1
    | false =>
      simp only [ProcessObjectForMVP_old f o i hb]
      exact ih _ _ oid h2

theorem processList_flags_mem :
    ∀ (L : List Obj) (f : Flags) (i oid : Nat), oid ∈ L.map Obj.id →
      (processList f i L).2.1 oid = false := by
  intro L
  induction L with
  | nil => intro f i oid h; cases h
  | cons o rest ih =>
    intro f i oid hoid
    by_cases hmem : oid ∈ rest.map Obj.id
    · simp only [processList]
      cases hb : f o.id with
      | true =>
        simp only [ProcessObjectForMVP_new f o i hb]
        exact ih _ _ oid hmem
      | false =>
        simp only [ProcessObjectForMVP_old f o i hb]
        exact ih _ _ oid hmem
    · have h1 : oid = o.id := by
        simp only [List.map_cons] at hoid
        rcases List.mem_cons.mp hoid with h | h
        · exact h
        · exact absurd h hmem
      subst h1
      simp only [processList]
      cases hb : f o.id with
      | true =>
        simp only [ProcessObjectForMVP_new f o i hb]
        rw [processList_flags_other rest _ _ o.id hmem]
        exact setFlag_self f o.id false
      | false =>
        simp only [ProcessObjectForMVP_old f o i hb]
        rw [processList_flags_other rest _ _ o.id hmem]
        exact hb

theorem processList_flags_false (L : List Obj) (f : Flags) (i oid : Nat)
    (h : f oid = false) : (processList f i L).2.1 oid = false := by
  by_cases hmem : oid ∈ L.map Obj.id
  · exact processList_flags_mem L f i oid hmem
  · rw [processList_flags_other L f i oid hmem]
    exact h

theorem processList_pass_notMem :
    ∀ (L : List Obj) (f : Flags) (i oid : Nat), oid ∉ L.map Obj.id →
      countEv (Ev.firstPass oid) (processList f i L).1 = 0
      ∧ countEv (Ev.secondPass oid) (processList f i L).1 = 0 := by
  intro L
  induction L with
  | nil => intro f i oid _; exact ⟨rfl, rfl⟩
  | cons o rest ih =>
    intro f i oid hoid
    have h1 : oid ≠ o.id := by
      intro he
      exact hoid (by rw [he]; exact List.mem_map_of_mem _ (List.mem_cons_self _ _))
    have h2 : oid ∉ rest.map Obj.id := by
      intro he
      exact hoid (by simp [he])
    have h3 : ¬ (o.id = oid) := fun he => h1 he.symm
    simp only [processList]
    cases hb : f o.id with
    | true =>
      simp only [ProcessObjectForMVP_new f o i hb]
      obtain ⟨ihf, ihs⟩ := ih (setFlag f o.id false) (i + 2) oid h2
      constructor
      · rw [countEv_append, ihf]
        simp [countEv, h3]
      · rw [countEv_append, ihs]
        simp [countEv, h3]
    | false =>
      simp only [ProcessObjectForMVP_old f o i hb]
      obtain ⟨ihf, ihs⟩ := ih f (i + 2) oid h2
      constructor
      · rw [countEv_append, ihf]
        simp [countEv]
      · rw [countEv_append, ihs]
        simp [countEv]

theorem processList_pass_false :
    ∀ (L : List Obj) (f : Flags) (i oid : Nat), f oid = false →
      countEv (Ev.firstPass oid) (processList f i L).1 = 0
      ∧ countEv (Ev.secondPass oid) (processList f i L).1 = 0 := by
  intro L
  induction L with
  | nil => intro f i oid _; exact ⟨rfl, rfl⟩
  | cons o rest ih =>
    intro f i oid hf
    simp only [processList]
    cases hb : f o.id with
    | true =>
      have h1 : o.id ≠ oid := by
        intro he
        rw [he] at hb
        rw [hb] at hf
        cases hf
      have hf2 : setFlag f o.id false oid = false := by
        rw [setFlag_other f o.id false oid (fun he => h1 he.symm)]
        exact hf
      simp only [ProcessObjectForMVP_new f o i hb]
      obtain ⟨ihf, ihs⟩ := ih (setFlag f o.id false) (i + 2) oid hf2
      constructor
      · rw [countEv_append, ihf]
        simp [countEv, h1]
      · rw [countEv_append, ihs]
        simp [countEv, h1]
    | false =>
      simp only [ProcessObjectForMVP_old f o i hb]
      obtain ⟨ihf, ihs⟩ := ih f (i + 2) oid hf
      constructor
      · rw [countEv_append, ihf]
        simp [countEv]
      · rw [countEv_append, ihs]
        simp [countEv]

theorem processList_pass_once :
    ∀ (L : List Obj) (f : Flags) (i oid : Nat), f oid = true →
      oid ∈ L.map Obj.id →
      countEv (Ev.firstPass oid) (processList f i L).1 = 1
      ∧ countEv (Ev.secondPass oid) (processList f i L).1 = 1 := by
  intro L
  induction L with
  | nil => intro f i oid _ hmem; cases hmem
  | cons o rest ih =>
    intro f i oid hf hmem
    simp only [processList]
    by_cases h1 : o.id = oid
    · subst h1
      simp only [ProcessObjectForMVP_new f o i hf]
      have hafter : setFlag f o.id false o.id = false := setFlag_self f o.id false
      obtain ⟨rf, rs⟩ := processList_pass_false rest (setFlag f o.id false) (i + 2)
        o.id hafter
      constructor
      · rw [countEv_append, rf]
        simp [countEv]
      · rw [countEv_append, rs]
        simp [countEv]
    · have hmem2 : oid ∈ rest.map Obj.id := by
        simp only [List.map_cons] at hmem
        rcases List.mem_cons.mp hmem with h | h
        · exact absurd h.symm h1
        · exact h
      cases hb : f o.id with
      | true =>
        have hf2 : setFlag f o.id false oid = true := by
          rw [setFlag_other f o.id false oid (fun he => h1 he.symm)]
          exact hf
        simp only [ProcessObjectForMVP_new f o i hb]
        obtain ⟨rf, rs⟩ := ih (setFlag f o.id false) (i + 2) oid hf2 hmem2
        constructor
        · rw [countEv_append, rf]
          simp [countEv, h1]
        · rw [countEv_append, rs]
          simp [countEv, h1]
      | false =>
        simp only [ProcessObjectForMVP_old f o i hb]
        obtain ⟨rf, rs⟩ := ih f (i + 2) oid hf hmem2
        constructor
        · rw [countEv_append, rf]
          simp [countEv]
        · rw [countEv_append, rs]
          simp [countEv]

theorem contiguousIn_append_left (a : List Ev) {l₁ l₂ : List Ev}
    (h : contiguousIn l₁ l₂) : contiguousIn l₁ (a ++ l₂) := by
  obtain ⟨s, t, heq⟩ := h
  exact ⟨a ++ s, t, by rw [← heq]; simp [List.append_assoc]⟩

theorem contiguousIn_append_right {l₁ l₂ : List Ev} (t2 : List Ev)
    (h : contiguousIn l₁ l₂) : contiguousIn l₁ (l₂ ++ t2) := by
  obtain ⟨s, t, heq⟩ := h
  exact ⟨s, t ++ t2, by rw [← heq]; simp [List.append_assoc]⟩

theorem contiguousIn_cons (x : Ev) {l₁ l₂ : List Ev}
    (h : contiguousIn l₁ l₂) : contiguousIn l₁ (x :: l₂) := by
  obtain ⟨s, t, heq⟩ := h
  exact ⟨x :: s, t, by rw [← heq]; simp⟩

theorem processList_block :
    ∀ (L : List Obj) (f : Flags) (i oid : Nat), f oid = true →
      oid ∈ L.map Obj.id →
      contiguousIn [Ev.firstPass oid, Ev.bindBuffer, Ev.secondPass oid]
        (processList f i L).1 := by
  intro L
  induction L with
  | nil => intro f i oid _ hmem; cases hmem
  | cons o rest ih =>
    intro f i oid hf hmem
    simp only [processList]
    by_cases h1 : o.id = oid
    · subst h1
      simp only [ProcessObjectForMVP_new f o i hf]
      refine ⟨[], [Ev.write i o.id, Ev.write (i + 1) o.id]
        ++ (processList (setFlag f o.id false) (i + 2) rest).1, ?_⟩
      simp
    · have hmem2 : oid ∈ rest.map Obj.id := by
        simp only [List.map_cons] at hmem
        rcases List.mem_cons.mp hmem with h | h
        · exact absurd h.symm h1
        · exact h
      cases hb : f o.id with
      | true =>
        have hf2 : setFlag f o.id false oid = true := by
          rw [setFlag_other f o.id false oid (fun he => h1 he.symm)]
          exact hf
        simp only [ProcessObjectForMVP_new f o i hb]
        exact contiguousIn_append_left _ (ih (setFlag f o.id false) (i + 2) oid hf2 hmem2)
      | false =>
        simp only [ProcessObjectForMVP_old f o i hb]
        exact contiguousIn_append_left _ (ih f (i + 2) oid hf hmem2)

theorem processList_filter_isWrite :
    ∀ (L : List Obj) (f : Flags) (i : Nat),
      (processList f i L).1.filter Ev.isWrite = writesFor L i := by
  intro L
  induction L with
  | nil => intro f i; rfl
  | cons o rest ih =>
    intro f i
    simp only [processList]
    cases hb : f o.id with
    | true =>
      simp only [ProcessObjectForMVP_new f o i hb]
      rw [List.filter_append, ih]
      simp [List.filter_cons, Ev.isWrite, writesFor]
    | false =>
      simp only [ProcessObjectForMVP_old f o i hb]
      rw [List.filter_append, ih]
      simp [List.filter_cons, Ev.isWrite, writesFor]

theorem processList_filter_isDraw :
    ∀ (L : List Obj) (f : Flags) (i : Nat),
      (processList f i L).1.filter Ev.isDraw = [] := by
  intro L
  induction L with
  | nil => intro f i; rfl
  | cons o rest ih =>
    intro f i
    simp only [processList]
    cases hb : f o.id with
    | true =>
      simp only [ProcessObjectForMVP_new f o i hb]
      rw [List.filter_append, ih]
      simp [List.filter_cons, Ev.isDraw]
    | false =>
      simp only [ProcessObjectForMVP_old f o i hb]
      rw [List.filter_append, ih]
      simp [List.filter_cons, Ev.isDraw]

theorem writesFor_slot :
    ∀ (L : List Obj) (i s oid : Nat), Ev.write s oid ∈ writesFor L i →
      i ≤ s ∧ s < i + 2 * L.length := by
  intro L
  induction L with
  | nil => intro i s oid h; cases h
  | cons o rest ih =>
    intro i s oid h
    unfold writesFor at h
    rcases List.mem_cons.mp h with h1 | h1
    · injection h1 with h2 h3
      simp only [List.length_cons]
      omega
    · rcases List.mem_cons.mp h1 with h2 | h2
      · injection h2 with h3 h4
        simp only [List.length_cons]
        omega
      · have := ih (i + 2) s oid h2
        simp only [List.length_cons]
        omega

theorem mem_drawBatch :
    ∀ (c : Nat) (L : List Obj) (x : Ev), x ∈ drawBatch c L →
      ∃ o, o ∈ L ∧ x = Ev.draw o.id c := by
  intro c L
  induction L with
  | nil => intro x h; cases h
  | cons o rest ih =>
    intro x h
    unfold drawBatch at h
    rcases List.mem_append.mp h with h1 | h1
    · exact ⟨o, List.mem_cons_self _ _, List.eq_of_mem_replicate h1⟩
    · obtain ⟨o2, ho2, hx⟩ := ih x h1
      exact ⟨o2, List.mem_cons_of_mem _ ho2, hx⟩

theorem mem_RenderBatches :
    ∀ (bs : List (Nat × List Obj)) (x : Ev), x ∈ RenderBatches bs →
      ∃ b, b ∈ bs ∧ ∃ o, o ∈ b.2 ∧ x = Ev.draw o.id b.2.length := by
  intro bs
  induction bs with
  | nil => intro x h; cases h
  | cons b rest ih =>
    intro x h
    unfold RenderBatches at h
    rcases List.mem_append.mp h with h1 | h1
    · obtain ⟨o, ho, hx⟩ := mem_drawBatch b.2.length b.2 x h1
      exact ⟨b, List.mem_cons_self _ _, o, ho, hx⟩
    · obtain ⟨b2, hb2, o, ho, hx⟩ := ih x h1
      exact ⟨b2, List.mem_cons_of_mem _ hb2, o, ho, hx⟩

theorem mem_RenderBatches_isDraw (bs : List (Nat × List Obj)) (x : Ev)
    (h : x ∈ RenderBatches bs) : x.isDraw = true := by
  obtain ⟨b, _, o, _, hx⟩ := mem_RenderBatches bs x h
  rw [hx]
  rfl

theorem drawBatch_length :
    ∀ (c : Nat) (L : List Obj),
      (drawBatch c L).length = (L.map fun o => o.meshCount).sum := by
  intro c L
  induction L with
  | nil => rfl
  | cons o rest ih =>
    unfold drawBatch drawCallsOf
    simp [ih]

theorem RenderBatches_filter_isDraw (bs : List (Nat × List Obj)) :
    (RenderBatches bs).filter Ev.isDraw = RenderBatches bs :=
  filter_eq_self_of _ _ (mem_RenderBatches_isDraw bs)

theorem RenderBatches_filter_isWrite (bs : List (Nat × List Obj)) :
    (RenderBatches bs).filter Ev.isWrite = [] := by
  refine filter_eq_nil_of _ _ ?_
  intro x hx
  obtain ⟨b, _, o, _, hx2⟩ := mem_RenderBatches bs x hx
  rw [hx2]
  rfl

theorem countEv_RenderBatches_pass (bs : List (Nat × List Obj)) (oid : Nat) :
    countEv (Ev.firstPass oid) (RenderBatches bs) = 0
    ∧ countEv (Ev.secondPass oid) (RenderBatches bs) = 0 := by
  constructor <;>
    refine countEv_eq_zero _ _ ?_ <;>
    intro x hx heq <;>
    obtain ⟨b, _, o, _, hx2⟩ := mem_RenderBatches bs x hx <;>
    rw [heq] at hx2 <;>
    cases hx2

theorem RenderSkybox_some_new (flags : Flags) (s : Obj) (h : flags s.id = true) :
    RenderSkybox flags (some s)
      = (Ev.firstPass s.id :: drawCallsOf s 1, setFlag flags s.id false) := by
  show (if flags s.id = true then
      (Ev.firstPass s.id :: drawCallsOf s 1, setFlag flags s.id false)
    else (drawCallsOf s 1, flags))
      = (Ev.firstPass s.id :: drawCallsOf s 1, setFlag flags s.id false)
  rw [if_pos h]

theorem RenderSkybox_some_old (flags : Flags) (s : Obj) (h : flags s.id = false) :
    RenderSkybox flags (some s) = (drawCallsOf s 1, flags) := by
  show (if flags s.id = true then
      (Ev.firstPass s.id :: drawCallsOf s 1, setFlag flags s.id false)
    else (drawCallsOf s 1, flags))
      = (drawCallsOf s 1, flags)
  rw [if_neg (by simp [h])]

theorem countEv_drawCallsOf_pass (s : Obj) (c oid : Nat) :
    countEv (Ev.firstPass oid) (drawCallsOf s c) = 0
    ∧ countEv (Ev.secondPass oid) (drawCallsOf s c) = 0 := by
  constructor <;>
    refine countEv_eq_zero _ _ ?_ <;>
    intro x hx heq <;>
    rw [List.eq_of_mem_replicate hx] at heq <;>
    cases heq

theorem countEv_RenderSkybox_pass (flags : Flags) (sk : Option Obj) (oid : Nat)
    (h : ∀ s, sk = some s → s.id ≠ oid ∨ flags s.id = false) :
    countEv (Ev.firstPass oid) (RenderSkybox flags sk).1 = 0
    ∧ countEv (Ev.secondPass oid) (RenderSkybox flags sk).1 = 0 := by
  cases sk with
  | none => exact ⟨rfl, rfl⟩
  | some s =>
    cases hb : flags s.id with
    | true =>
      rcases h s rfl with h1 | h1
      · rw [RenderSkybox_some_new flags s hb]
        obtain ⟨c1, c2⟩ := countEv_drawCallsOf_pass s 1 oid
        constructor
        · simp [countEv, c1, h1]
        · simp [countEv, c2]
      · rw [h1] at hb
        cases hb
    | false =>
      rw [RenderSkybox_some_old flags s hb]
      exact countEv_drawCallsOf_pass s 1 oid

theorem RenderSkybox_flags_false (flags : Flags) (sk : Option Obj) (oid : Nat)
    (h : flags oid = false) : (RenderSkybox flags sk).2 oid = false := by
  cases sk with
  | none => exact h
  | some s =>
    cases hb : flags s.id with
    | true =>
      rw [RenderSkybox_some_new flags s hb]
      show setFlag flags s.id false oid = false
      by_cases he : oid = s.id
      · rw [he]
        exact setFlag_self flags s.id false
      · rw [setFlag_other flags s.id false oid he]
        exact h
    | false =>
      rw [RenderSkybox_some_old flags s hb]
      exact h

theorem RenderSkybox_filter_isDraw (flags : Flags) (sk : Option Obj) :
    (RenderSkybox flags sk).1.filter Ev.isDraw = skyboxDraws sk := by
  cases sk with
  | none => rfl
  | some s =>
    have hd : (drawCallsOf s 1).filter Ev.isDraw = drawCallsOf s 1 := by
      refine filter_eq_self_of _ _ ?_
      intro x hx
      rw [List.eq_of_mem_replicate hx]
      rfl
    cases hb : flags s.id with
    | true =>
      rw [RenderSkybox_some_new flags s hb]
      simp only [List.filter_cons]
      rw [if_neg (by simp [Ev.isDraw])]
      exact hd
    | false =>
      rw [RenderSkybox_some_old flags s hb]
      exact hd

theorem RenderSkybox_filter_isWrite (flags : Flags) (sk : Option Obj) :
    (RenderSkybox flags sk).1.filter Ev.isWrite = [] := by
  cases sk with
  | none => rfl
  | some s =>
    have hd : (drawCallsOf s 1).filter Ev.isWrite = [] := by
      refine filter_eq_nil_of _ _ ?_
      intro x hx
      rw [List.eq_of_mem_replicate hx]
      rfl
    cases hb : flags s.id with
    | true =>
      rw [RenderSkybox_some_new flags s hb]
      simp only [List.filter_cons]
      rw [if_neg (by simp [Ev.isWrite])]
      exact hd
    | false =>
      rw [RenderSkybox_some_old flags s hb]
      exact hd

/-! Frame decomposition. -/

theorem Render_trace (buf : MatrixBuffer) (flags : Flags) (objs : List Obj) :
    (Render buf flags objs).1
      = Ev.clear
        :: ([Ev.ensure (objs.length
              - (if (BatchSceneObjects objs).2.isSome then 1 else 0))]
          ++ (processList flags 0 (flatBatches (BatchSceneObjects objs).1)).1
          ++ [Ev.upload]
          ++ RenderBatches (BatchSceneObjects objs).1
          ++ (RenderSkybox
                (processList flags 0 (flatBatches (BatchSceneObjects objs).1)).2.1
                (BatchSceneObjects objs).2).1) := by
  simp [Render, UpdateMVPInstances, EnsureBufferCapacity, List.append_assoc]

theorem Render_buf (buf : MatrixBuffer) (flags : Flags) (objs : List Obj) :
    (Render buf flags objs).2.1
      = (EnsureBufferCapacity buf
          (objs.length - (if (BatchSceneObjects objs).2.isSome then 1 else 0))).2 := rfl

theorem Render_flags (buf : MatrixBuffer) (flags : Flags) (objs : List Obj) :
    (Render buf flags objs).2.2
      = (RenderSkybox
          (processList flags 0 (flatBatches (BatchSceneObjects objs).1)).2.1
          (BatchSceneObjects objs).2).2 := rfl

theorem EnsureBufferCapacity_cap (buf : MatrixBuffer) (total : Nat) :
    total ≤ ((EnsureBufferCapacity buf total).2).objectCount := by
  show total ≤ (if buf.allocated = false ∨ buf.objectCount < total then
      buf.Resize total else buf).objectCount
  split
  · exact Resize_ge buf total
  · rename_i h
    push_neg at h
    omega

theorem mem_flat_of_nonsky (objs : List Obj) (o : Obj) (ho : o ∈ objs)
    (hsk : o.isSkybox = false) :
    o ∈ flatBatches (BatchSceneObjects objs).1 := by
  apply mem_of_mem_lookupBatch _ o.hash
  rw [BatchSceneObjects_lookup]
  exact List.mem_filter.mpr ⟨ho, by simp [hsk]⟩

theorem nodup_ids_inj {objs : List Obj} (hnd : (objs.map Obj.id).Nodup)
    {a b : Obj} (ha : a ∈ objs) (hb : b ∈ objs) (heq : a.id = b.id) : a = b :=
  List.inj_on_of_nodup_map hnd ha hb heq

theorem filterCond_split (o : Obj) (h : Nat)
    (hc : (!o.isSkybox && o.hash == h) = true) :
    o.isSkybox = false ∧ o.hash = h := by
  obtain ⟨h1, h2⟩ := Bool.and_eq_true_iff.mp hc
  constructor
  · cases hx : o.isSkybox
    · rfl
    · rw [hx] at h1; cases h1
  · exact eq_of_beq h2

theorem countEv_RenderSkybox_sp (flags : Flags) (sk : Option Obj) (oid : Nat) :
    countEv (Ev.secondPass oid) (RenderSkybox flags sk).1 = 0 := by
  cases sk with
  | none => rfl
  | some s =>
    cases hb : flags s.id with
    | true =>
      rw [RenderSkybox_some_new flags s hb]
      simp [countEv, (countEv_drawCallsOf_pass s 1 oid).2]
    | false =>
      rw [RenderSkybox_some_old flags s hb]
      exact (countEv_drawCallsOf_pass s 1 oid).2

theorem countEv_RenderSkybox_fp_self (flags : Flags) (s : Obj) :
    countEv (Ev.firstPass s.id) (RenderSkybox flags (some s)).1
      = (if flags s.id = true then 1 else 0) := by
  cases hb : flags s.id with
  | true =>
    rw [RenderSkybox_some_new flags s hb]
    simp [countEv, (countEv_drawCallsOf_pass s 1 s.id).1]
  | false =>
    rw [RenderSkybox_some_old flags s hb]
    simp [(countEv_drawCallsOf_pass s 1 s.id).1]

theorem RenderSkybox_flags_self (flags : Flags) (s : Obj) :
    (RenderSkybox flags (some s)).2 s.id = false := by
  cases hb : flags s.id with
  | true =>
    rw [RenderSkybox_some_new flags s hb]
    exact setFlag_self flags s.id false
  | false =>
    rw [RenderSkybox_some_old flags s hb]
    exact hb

theorem Render_pass_free (buf : MatrixBuffer) (flags : Flags) (objs : List Obj)
    (oid : Nat) (h : flags oid = false) :
    countEv (Ev.firstPass oid) (Render buf flags objs).1 = 0
    ∧ countEv (Ev.secondPass oid) (Render buf flags objs).1 = 0
    ∧ (Render buf flags objs).2.2 oid = false := by
  have hpl := processList_pass_false (flatBatches (BatchSceneObjects objs).1)
    flags 0 oid h
  have hflags1 :
      (processList flags 0 (flatBatches (BatchSceneObjects objs).1)).2.1 oid
        = false :=
    processList_flags_false _ flags 0 oid h
  have hskyh : ∀ s, (BatchSceneObjects objs).2 = some s →
      s.id ≠ oid
      ∨ (processList flags 0 (flatBatches (BatchSceneObjects objs).1)).2.1 s.id
          = false := by
    intro s _
    by_cases he : s.id = oid
    · right; rw [he]; exact hflags1
    · left; exact he
  obtain ⟨sf, ss⟩ := countEv_RenderSkybox_pass _ _ oid hskyh
  obtain ⟨bf, bs2⟩ := countEv_RenderBatches_pass (BatchSceneObjects objs).1 oid
  refine ⟨?_, ?_, ?_⟩
  · rw [Render_trace]
    simp [countEv_append, countEv, hpl.1, bf, sf]
  · rw [Render_trace]
    simp [countEv_append, countEv, hpl.2, bs2, ss]
  · rw [Render_flags]
    exact RenderSkybox_flags_false _ _ oid hflags1

theorem RenderLoop_succ (buf : MatrixBuffer) (flags : Flags) (objs : List Obj)
    (k : Nat) :
    RenderLoop buf flags objs (k + 1)
      = RenderLoop (Render buf flags objs).2.1 (Render buf flags objs).2.2 objs k :=
  rfl

theorem RenderLoop_flags_false :
    ∀ (k : Nat) (buf : MatrixBuffer) (flags : Flags) (objs : List Obj) (oid : Nat),
      flags oid = false → (RenderLoop buf flags objs k).2 oid = false := by
  intro k
  induction k with
  | zero => intro buf flags objs oid h; exact h
  | succ m ih =>
    intro buf flags objs oid h
    rw [RenderLoop_succ]
    exact ih _ _ objs oid (Render_pass_free buf flags objs oid h).2.2

/-! Claim theorems for the renderer pipeline. -/

/-- C2 counterexample: with two flagged objects skyA then skyB, the
selected background object is skyB (the last, not the first), and skyB is
not placed into any batch (its hash bucket is empty), contradicting the
claim that the first flagged object wins and later ones are treated as
ordinary objects. -/
theorem C2_counterexample :
    (BatchSceneObjects [skyA, skyB]).2 = some skyB
    ∧ (BatchSceneObjects [skyA, skyB]).2 ≠ some skyA
    ∧ lookupBatch (BatchSceneObjects [skyA, skyB]).1 skyB.hash = [] :=
  ⟨by decide, by decide, by decide⟩

/-- C2 amended: the object selected as background is the LAST object in
registration order whose flag is set; every flagged object (selected or
not) is excluded from the hash-keyed batches, so batches contain only
unflagged objects; at most one object is treated as background (the
selection is a single optional object). -/
theorem C2_background_selection (objs : List Obj) :
    (BatchSceneObjects objs).2 = lastFlagged objs
    ∧ (∀ h b, (h, b) ∈ (BatchSceneObjects objs).1 →
        b = objs.filter (fun o => !o.isSkybox && o.hash == h))
    ∧ (∀ h b o, (h, b) ∈ (BatchSceneObjects objs).1 → o ∈ b →
        o.isSkybox = false) := by
  refine ⟨BatchSceneObjects_sky objs,
    fun h b hm => BatchSceneObjects_mem_eq_filter objs h b hm, ?_⟩
  intro h b o hm ho
  rw [BatchSceneObjects_mem_eq_filter objs h b hm] at ho
  obtain ⟨_, hcond⟩ := List.mem_filter.mp ho
  exact (filterCond_split o h hcond).1

/-- Witness for C2 amended: in a scene with two flagged objects and one
ordinary object of hash 1, the batch for key 1 is exactly the ordinary
object. -/
theorem C2_background_selection_witness :
    ((1, [objA]) ∈ (BatchSceneObjects [skyA, skyB, objA]).1)
    ∧ [objA] = [skyA, skyB, objA].filter (fun o => !o.isSkybox && o.hash == 1) :=
  ⟨by decide,
   (C2_background_selection [skyA, skyB, objA]).2.1 1 [objA] (by decide)⟩

/-- C8: batching is a deterministic function of the object list: every
batch in the map is exactly the unflagged objects of that hash in
registration order, batch keys are strictly increasing, and one fixed
batch order determines both the write sequence (two slots per object) and
the draw sequence of the frame. -/
theorem C8_batching_deterministic (buf : MatrixBuffer) (flags : Flags)
    (objs : List Obj) :
    (∀ h b, (h, b) ∈ (BatchSceneObjects objs).1 →
        b = objs.filter (fun o => !o.isSkybox && o.hash == h))
    ∧ keysSortedB (BatchSceneObjects objs).1 = true
    ∧ (Render buf flags objs).1.filter Ev.isWrite
        = writesFor (flatBatches (BatchSceneObjects objs).1) 0
    ∧ (Render buf flags objs).1.filter Ev.isDraw
        = RenderBatches (BatchSceneObjects objs).1
          ++ skyboxDraws (BatchSceneObjects objs).2 := by
  refine ⟨fun h b hm => BatchSceneObjects_mem_eq_filter objs h b hm,
    BatchSceneObjects_sorted objs, ?_, ?_⟩
  · rw [Render_trace]
    simp [List.filter_append, processList_filter_isWrite,
      RenderBatches_filter_isWrite, RenderSkybox_filter_isWrite, Ev.isWrite]
  · rw [Render_trace]
    simp [List.filter_append, processList_filter_isDraw,
      RenderBatches_filter_isDraw, RenderSkybox_filter_isDraw, Ev.isDraw]

/-- Witness for C8: the single batch of the two-object scene is exactly the
filter of the scene list. -/
theorem C8_batching_deterministic_witness :
    ((1, [objA, objB]) ∈ (BatchSceneObjects [objA, objB]).1)
    ∧ [objA, objB] = [objA, objB].filter (fun o => !o.isSkybox && o.hash == 1) :=
  ⟨by decide,
   (C8_batching_deterministic MatrixBuffer.empty allNew [objA, objB]).1
     1 [objA, objB] (by decide)⟩

/-- C1 counterexample: with two New objects A and B of the same hash, the
render pass issues two instanced draw calls (one per object, each with
instance count 2), not the single instanced draw the claim requires. -/
theorem C1_counterexample :
    ((Render MatrixBuffer.empty allNew [objA, objB]).1.filter Ev.isDraw).length = 2
    ∧ ((Render MatrixBuffer.empty allNew [objA, objB]).1.filter Ev.isDraw).length
        ≠ 1 :=
  ⟨by decide, by decide⟩

/-- C1 amended: RenderBatches calls Render(batchSize) once per OBJECT of
each batch, so a batch of k objects receives k instanced draw calls (one
per mesh per object), each with instance count k, in batch order; the draw
events of a frame are exactly these followed by the skybox draw.  In the
two-object H1 scenario the frame issues two instanced draws of count 2,
EnsureCapacity is called with 2, and both objects leave the New state. -/
theorem C1_draws_per_object (buf : MatrixBuffer) (flags : Flags)
    (objs : List Obj) :
    ((Render buf flags objs).1.filter Ev.isDraw
      = RenderBatches (BatchSceneObjects objs).1
        ++ skyboxDraws (BatchSceneObjects objs).2)
    ∧ (∀ h b, (h, b) ∈ (BatchSceneObjects objs).1 →
        (drawBatch b.length b).length = (b.map fun o => o.meshCount).sum
        ∧ ∀ e ∈ drawBatch b.length b, ∃ o, o ∈ b ∧ e = Ev.draw o.id b.length)
    ∧ ((Render MatrixBuffer.empty allNew [objA, objB]).1.filter Ev.isDraw
        = [Ev.draw objA.id 2, Ev.draw objB.id 2]
      ∧ countEv (Ev.ensure 2) (Render MatrixBuffer.empty allNew [objA, objB]).1
          = 1
      ∧ (Render MatrixBuffer.empty allNew [objA, objB]).2.2 objA.id = false
      ∧ (Render MatrixBuffer.empty allNew [objA, objB]).2.2 objB.id = false) := by
  refine ⟨?_, ?_, by decide, by decide, by decide, by decide⟩
  · rw [Render_trace]
    simp [List.filter_append, processList_filter_isDraw,
      RenderBatches_filter_isDraw, RenderSkybox_filter_isDraw, Ev.isDraw]
  · intro h b _
    exact ⟨drawBatch_length b.length b, fun e he => mem_drawBatch b.length b e he⟩

/-- Witness for C1 amended: the batch of hash 1 in the two-object scene,
with its draw-call count equal to the total mesh count of the batch. -/
theorem C1_draws_per_object_witness :
    ((1, [objA, objB]) ∈ (BatchSceneObjects [objA, objB]).1)
    ∧ (drawBatch 2 [objA, objB]).length
        = ([objA, objB].map fun o => o.meshCount).sum :=
  ⟨by decide,
   ((C1_draws_per_object MatrixBuffer.empty allNew [objA, objB]).2.1
     1 [objA, objB] (by decide)).1⟩

/-- C5: a non-background object that is New is initialized exactly once in
the frame that processes it: FirstPass, then the instance-buffer bind,
then SecondPass occur contiguously in that order, each pass occurring
exactly once in the frame, the New flag is cleared afterwards, and in
every later frame of the loop neither pass occurs again. -/
theorem C5_two_phase_lifecycle (buf : MatrixBuffer) (flags : Flags)
    (objs : List Obj) (o : Obj) (hnd : (objs.map Obj.id).Nodup) (ho : o ∈ objs)
    (hsk : o.isSkybox = false) (hnew : flags o.id = true) :
    contiguousIn [Ev.firstPass o.id, Ev.bindBuffer, Ev.secondPass o.id]
      (frameTrace buf flags objs 0)
    ∧ countEv (Ev.firstPass o.id) (frameTrace buf flags objs 0) = 1
    ∧ countEv (Ev.secondPass o.id) (frameTrace buf flags objs 0) = 1
    ∧ (Render buf flags objs).2.2 o.id = false
    ∧ (∀ k, 1 ≤ k →
        countEv (Ev.firstPass o.id) (frameTrace buf flags objs k) = 0
        ∧ countEv (Ev.secondPass o.id) (frameTrace buf flags objs k) = 0) := by
  have hflat : o.id ∈ (flatBatches (BatchSceneObjects objs).1).map Obj.id :=
    List.mem_map_of_mem _ (mem_flat_of_nonsky objs o ho hsk)
  have hflags1 :
      (processList flags 0 (flatBatches (BatchSceneObjects objs).1)).2.1 o.id
        = false :=
    processList_flags_mem _ flags 0 o.id hflat
  have hskyh : ∀ s, (BatchSceneObjects objs).2 = some s →
      s.id ≠ o.id
      ∨ (processList flags 0 (flatBatches (BatchSceneObjects objs).1)).2.1 s.id
          = false := by
    intro s hs
    left
    have hlast : lastFlagged objs = some s := by
      rw [← BatchSceneObjects_sky]; exact hs
    obtain ⟨hsmem, hsflag⟩ := lastFlagged_mem objs s hlast
    intro heq
    have : s = o := nodup_ids_inj hnd hsmem ho heq
    rw [this] at hsflag
    rw [hsk] at hsflag
    cases hsflag
  obtain ⟨pf, ps⟩ := processList_pass_once
    (flatBatches (BatchSceneObjects objs).1) flags 0 o.id hnew hflat
  obtain ⟨bf, bs2⟩ := countEv_RenderBatches_pass (BatchSceneObjects objs).1 o.id
  obtain ⟨sf, ss⟩ := countEv_RenderSkybox_pass _ (BatchSceneObjects objs).2 o.id
    hskyh
  have hframe0 : (Render buf flags objs).2.2 o.id = false := by
    rw [Render_flags]
    exact RenderSkybox_flags_false _ _ o.id hflags1
  refine ⟨?_, ?_, ?_, hframe0, ?_⟩
  · show contiguousIn _ (Render buf flags objs).1
    rw [Render_trace]
    exact contiguousIn_cons Ev.clear
      (contiguousIn_append_right
        (RenderSkybox
          (processList flags 0 (flatBatches (BatchSceneObjects objs).1)).2.1
          (BatchSceneObjects objs).2).1
        (contiguousIn_append_right (RenderBatches (BatchSceneObjects objs).1)
          (contiguousIn_append_right [Ev.upload]
            (contiguousIn_append_left
              [Ev.ensure (objs.length
                - (if (BatchSceneObjects objs).2.isSome then 1 else 0))]
              (processList_block (flatBatches (BatchSceneObjects objs).1)
                flags 0 o.id hnew hflat)))))
  · show countEv _ (Render buf flags objs).1 = 1
    rw [Render_trace]
    simp [countEv_append, countEv, pf, bf, sf]
  · show countEv _ (Render buf flags objs).1 = 1
    rw [Render_trace]
    simp [countEv_append, countEv, ps, bs2, ss]
  · intro k hk
    obtain ⟨m, rfl⟩ : ∃ m, k = m + 1 := ⟨k - 1, by omega⟩
    have hstate : (RenderLoop buf flags objs (m + 1)).2 o.id = false := by
      rw [RenderLoop_succ]
      exact RenderLoop_flags_false m _ _ objs o.id hframe0
    obtain ⟨cf, cs, _⟩ := Render_pass_free (RenderLoop buf flags objs (m + 1)).1
      (RenderLoop buf flags objs (m + 1)).2 objs o.id hstate
    exact ⟨cf, cs⟩

/-- Witness for C5 on a one-object scene with a New object. -/
theorem C5_two_phase_lifecycle_witness :
    (([objA].map Obj.id).Nodup ∧ objA ∈ [objA] ∧ objA.isSkybox = false
      ∧ allNew objA.id = true)
    ∧ countEv (Ev.firstPass objA.id) (frameTrace MatrixBuffer.empty allNew [objA] 0)
        = 1
    ∧ (Render MatrixBuffer.empty allNew [objA]).2.2 objA.id = false :=
  ⟨⟨by decide, by decide, by decide, rfl⟩,
   (C5_two_phase_lifecycle MatrixBuffer.empty allNew [objA] objA (by decide)
     (by decide) (by decide) rfl).2.1,
   (C5_two_phase_lifecycle MatrixBuffer.empty allNew [objA] objA (by decide)
     (by decide) (by decide) rfl).2.2.2.1⟩

/-- C6 counterexample: a New skybox is initialized by FirstPass alone; no
SecondPass (and no instance-buffer bind between passes) occurs for it,
contradicting the claim that the full init sequence of ordinary objects
runs. -/
theorem C6_counterexample :
    countEv (Ev.secondPass skyA.id) (Render MatrixBuffer.empty allNew [skyA]).1
        = 0
    ∧ countEv (Ev.firstPass skyA.id) (Render MatrixBuffer.empty allNew [skyA]).1
        = 1
    ∧ (0 : Nat) ≠ 1 :=
  ⟨by decide, by decide, by decide⟩

/-- C6 amended: when a background object exists, a New background object
runs only FirstPass (never SecondPass) before its New flag is cleared, and
it is drawn with instance count 1 strictly after every batch draw call:
the frame's draw events are all batch draws followed by the background
draws. -/
theorem C6_skybox_draw_last (buf : MatrixBuffer) (flags : Flags)
    (objs : List Obj) (s : Obj) (hnd : (objs.map Obj.id).Nodup)
    (hs : (BatchSceneObjects objs).2 = some s) :
    ((Render buf flags objs).1.filter Ev.isDraw
      = RenderBatches (BatchSceneObjects objs).1 ++ drawCallsOf s 1)
    ∧ countEv (Ev.secondPass s.id) (Render buf flags objs).1 = 0
    ∧ countEv (Ev.firstPass s.id) (Render buf flags objs).1
        = (if flags s.id = true then 1 else 0)
    ∧ (Render buf flags objs).2.2 s.id = false := by
  have hlast : lastFlagged objs = some s := by
    rw [← BatchSceneObjects_sky]; exact hs
  obtain ⟨hsmem, hsflag⟩ := lastFlagged_mem objs s hlast
  have hnotflat : s.id ∉ (flatBatches (BatchSceneObjects objs).1).map Obj.id := by
    intro hmem
    obtain ⟨o, homem, hoid⟩ := List.mem_map.mp hmem
    obtain ⟨p, hp, hop⟩ := mem_flatBatches _ o homem
    obtain ⟨ph, pb⟩ := p
    rw [BatchSceneObjects_mem_eq_filter objs ph pb hp] at hop
    obtain ⟨homem2, hcond⟩ := List.mem_filter.mp hop
    have hosky : o.isSkybox = false := (filterCond_split o ph hcond).1
    have : o = s := nodup_ids_inj hnd homem2 hsmem hoid
    rw [this, hsflag] at hosky
    cases hosky
  have hflags1 :
      (processList flags 0 (flatBatches (BatchSceneObjects objs).1)).2.1 s.id
        = flags s.id :=
    processList_flags_other _ flags 0 s.id hnotflat
  obtain ⟨pf, ps⟩ := processList_pass_notMem
    (flatBatches (BatchSceneObjects objs).1) flags 0 s.id hnotflat
  obtain ⟨bf, bs2⟩ := countEv_RenderBatches_pass (BatchSceneObjects objs).1 s.id
  refine ⟨?_, ?_, ?_, ?_⟩
  · rw [Render_trace, hs]
    simp [List.filter_append, processList_filter_isDraw,
      RenderBatches_filter_isDraw, RenderSkybox_filter_isDraw, Ev.isDraw,
      skyboxDraws]
  · rw [Render_trace]
    simp [countEv_append, countEv, ps, bs2, countEv_RenderSkybox_sp]
  · rw [Render_trace, hs]
    simp [countEv_append, countEv, pf, bf, countEv_RenderSkybox_fp_self, hflags1]
  · rw [Render_flags, hs]
    exact RenderSkybox_flags_self _ s

/-- Witness for C6 amended on a one-skybox scene. -/
theorem C6_skybox_draw_last_witness :
    (([skyA].map Obj.id).Nodup ∧ (BatchSceneObjects [skyA]).2 = some skyA)
    ∧ countEv (Ev.secondPass skyA.id) (Render MatrixBuffer.empty allNew [skyA]).1
        = 0 :=
  ⟨⟨by decide, by decide⟩,
   (C6_skybox_draw_last MatrixBuffer.empty allNew [skyA] skyA (by decide)
     (by decide)).2.1⟩

/-- C9: matrix writes are in-bounds by construction: the frame's write
events advance two slots per batched object from slot 0, the number of
batched objects never exceeds the capacity requested (scene size minus one
when any flagged object exists), every written slot is strictly below
twice the post-frame object capacity, and an empty scene performs no
writes at all. -/
theorem C9_write_safety (buf : MatrixBuffer) (flags : Flags) (objs : List Obj) :
    ((Render buf flags objs).1.filter Ev.isWrite
      = writesFor (flatBatches (BatchSceneObjects objs).1) 0)
    ∧ ((flatBatches (BatchSceneObjects objs).1).length
        ≤ objs.length - (if (BatchSceneObjects objs).2.isSome then 1 else 0))
    ∧ (∀ s oid, Ev.write s oid ∈ (Render buf flags objs).1 →
        s < 2 * (Render buf flags objs).2.1.objectCount)
    ∧ (objs = [] → (Render buf flags objs).1.filter Ev.isWrite = []) := by
  have ha : (Render buf flags objs).1.filter Ev.isWrite
      = writesFor (flatBatches (BatchSceneObjects objs).1) 0 := by
    rw [Render_trace]
    simp [List.filter_append, processList_filter_isWrite,
      RenderBatches_filter_isWrite, RenderSkybox_filter_isWrite, Ev.isWrite]
  have hb : (flatBatches (BatchSceneObjects objs).1).length
      ≤ objs.length - (if (BatchSceneObjects objs).2.isSome then 1 else 0) := by
    rw [BatchSceneObjects_flatLength]
    have hsplit := filter_isSkybox_length_split objs
    cases hh : (BatchSceneObjects objs).2 with
    | none =>
      have h0 : lastFlagged objs = none := by
        rw [← BatchSceneObjects_sky]; exact hh
      have hnil := lastFlagged_none objs h0
      rw [hnil] at hsplit
      rw [show (if (none : Option Obj).isSome = true then 1 else 0) = 0 from rfl]
      simp only [List.length_nil] at hsplit
      omega
    | some s =>
      have h0 : lastFlagged objs = some s := by
        rw [← BatchSceneObjects_sky]; exact hh
      have hpos := lastFlagged_some_filter_pos objs s h0
      rw [show (if (some s).isSome = true then 1 else 0) = 1 from rfl]
      omega
  refine ⟨ha, hb, ?_, ?_⟩
  · intro s oid hmem
    have hw : Ev.write s oid ∈ (Render buf flags objs).1.filter Ev.isWrite :=
      List.mem_filter.mpr ⟨hmem, rfl⟩
    rw [ha] at hw
    have hslot := writesFor_slot _ 0 s oid hw
    have hcap := EnsureBufferCapacity_cap buf
      (objs.length - (if (BatchSceneObjects objs).2.isSome then 1 else 0))
    rw [Render_buf]
    omega
  · intro he
    subst he
    rw [ha]
    rfl

/-- Witness for C9: the first write of the one-object scene lands in slot
0, strictly below twice the post-frame capacity. -/
theorem C9_write_safety_witness :
    (Ev.write 0 objA.id ∈ (Render MatrixBuffer.empty allNew [objA]).1)
    ∧ 0 < 2 * (Render MatrixBuffer.empty allNew [objA]).2.1.objectCount :=
  ⟨by decide,
   (C9_write_safety MatrixBuffer.empty allNew [objA]).2.2.1 0 objA.id (by decide)⟩

end FireGL
